import Mathlib

/-
Verification development for the news-ingestion backend.

The definitions below are a shallow embedding of the ingestion pipeline:

* `src/src/lib/mongoose.ts` — the `ScrapingService` class (the first of the
  two versions concatenated in that file, which is the one all line
  references point at): `scrapeAllSources`, `scrapeSource`, `scrapeArticle`,
  `determineCategory`, `extractImages`, `isValidArticleImage`,
  `generateHash`, the slug-collision loop, and the module-level
  user-agent/proxy rotation.
* `src/scripts/runScraper.ts` — the standalone scraper script:
  `computeCategoryFromText`, `createDynamicCategory`, `generateHash`
  (md5 over link), and its feed-parse fallback logic.

External libraries (axios, cheerio, rss-parser, crypto, slugify, the JS
RegExp engine and the JS Date clock) are modelled as parameters gathered in
an environment record: the embedding keeps all of the repository's own
control flow, string manipulation and data-structure logic, while the
environment supplies the results of library calls (page HTML, parsed feed
documents, digest values, the current time).  MongoDB collections are
modelled as in-memory lists threaded through the functions; queries such as
`Article.findOne({ hash })` become list look-ups.

JavaScript `${n}` decimal interpolation of integers is modelled by an
executable decimal printer `decNat`, proved injective below so that the
slug-disambiguation loop can be shown to terminate with a fresh slug.
-/

namespace NewsIngest

/-! ## String helpers (JS semantics) -/

/-- JS `a || b` for a possibly-`undefined` string `a`: `undefined` and the
empty string are falsy. -/
def jsOr (a : Option String) (b : String) : String :=
  match a with
  | none => b
  | some s => if s = "" then b else s

/-- Character-level lowercase map, modelling `String.prototype.toLowerCase`
(the inputs this development evaluates on are ASCII or caseless scripts,
where the two agree). -/
def lowerStr (s : String) : String :=
  String.mk (s.data.map Char.toLower)

/-- Does `hay` contain `needle` as a contiguous sublist?  Models JS
`String.prototype.includes` (which is true for the empty needle). -/
def hasInfix (hay needle : List Char) : Bool :=
  needle.isPrefixOf hay ||
    match hay with
    | [] => false
    | _ :: t => hasInfix t needle

/-- JS `t.includes(k)`. -/
def strIncludes (hay needle : String) : Bool :=
  hasInfix hay.data needle.data

theorem hasInfix_nil (needle : List Char) :
    hasInfix [] needle = needle.isEmpty := by
  cases needle <;> simp [hasInfix, List.isPrefixOf]

theorem hasInfix_of_isPrefixOf {hay needle : List Char}
    (h : needle.isPrefixOf hay) : hasInfix hay needle = true := by
  cases hay <;> simp [hasInfix, h]

/-! ## Decimal printing of naturals (JS template-literal `${n}`) -/

/-- Little-endian decimal digits of `n`, using the core digit table. -/
def decDigitsRev (n : Nat) : List Char :=
  if _h : n < 10 then [Nat.digitChar n]
  else Nat.digitChar (n % 10) :: decDigitsRev (n / 10)
  termination_by n
  decreasing_by exact Nat.div_lt_self (by omega) (by omega)

/-- Decimal string of `n`, as JS `${n}` produces. -/
def decNat (n : Nat) : String :=
  String.mk (decDigitsRev n).reverse

/-- Numeric value of a little-endian digit list; inverse of `decDigitsRev`. -/
def valRev : List Char → Nat
  | [] => 0
  | c :: cs => (c.toNat - 48) + 10 * valRev cs

theorem digitChar_val {d : Nat} (h : d < 10) :
    (Nat.digitChar d).toNat - 48 = d := by
  interval_cases d <;> rfl

theorem valRev_decDigitsRev (n : Nat) : valRev (decDigitsRev n) = n := by
  induction n using Nat.strong_induction_on with
  | _ n ih =>
    rw [decDigitsRev]
    by_cases h : n < 10
    · simp only [h, if_true, valRev, digitChar_val h]
      omega
    · simp only [h, if_false, valRev]
      rw [digitChar_val (Nat.mod_lt _ (by omega)),
        ih (n / 10) (Nat.div_lt_self (by omega) (by omega))]
      omega

theorem decDigitsRev_injective : Function.Injective decDigitsRev := by
  intro a b h
  have := valRev_decDigitsRev a
  rw [h, valRev_decDigitsRev] at this
  omega

theorem decNat_injective : Function.Injective decNat := by
  intro a b h
  apply decDigitsRev_injective
  have hd : (decDigitsRev a).reverse = (decDigitsRev b).reverse := by
    have := congrArg String.data h
    simpa [decNat] using this
  simpa using congrArg List.reverse hd

/-! ## JS whitespace and script-range character tests -/

/-- The JS regex `\s` character class (the whitespace set used by
`computeCategoryFromText`'s `\s+` collapse). -/
def isJsSpace (c : Char) : Bool :=
  c = ' ' || c = '\t' || c = '\n' || c = '\r' ||
  c.toNat = 0x0B || c.toNat = 0x0C || c.toNat = 0xA0 || c.toNat = 0x1680 ||
  (0x2000 ≤ c.toNat && c.toNat ≤ 0x200A) ||
  c.toNat = 0x2028 || c.toNat = 0x2029 || c.toNat = 0x202F ||
  c.toNat = 0x205F || c.toNat = 0x3000 || c.toNat = 0xFEFF

/-- The zero-width characters removed by `computeCategoryFromText`'s
`[​-‍﻿]` regex. -/
def isZeroWidth (c : Char) : Bool :=
  (0x200B ≤ c.toNat && c.toNat ≤ 0x200D) || c.toNat = 0xFEFF

/-- Scanner for `collapseWs`: the flag records whether the previous
character belonged to a whitespace run (whose single blank was already
emitted). -/
def collapseWsAux : Bool → List Char → List Char
  | _, [] => []
  | inRun, c :: cs =>
    if isJsSpace c then
      if inRun then collapseWsAux true cs
      else ' ' :: collapseWsAux true cs
    else c :: collapseWsAux false cs

/-- Collapse maximal runs of JS whitespace to a single blank, as
`.replace(/\s+/g, ' ')` does. -/
def collapseWs (l : List Char) : List Char :=
  collapseWsAux false l

/-- JS `String.prototype.trim` on a character list (leading and trailing
whitespace removed). -/
def trimWs (l : List Char) : List Char :=
  ((l.dropWhile isJsSpace).reverse.dropWhile isJsSpace).reverse

/-- JS `\W` complement: the `\w` word characters `[A-Za-z0-9_]`. -/
def isWordChar (c : Char) : Bool :=
  ('a' ≤ c && c ≤ 'z') || ('A' ≤ c && c ≤ 'Z') || ('0' ≤ c && c ≤ '9') || c = '_'

/-- Number of non-empty tokens after splitting on whitespace, modelling
`str.split(/\s+/).filter(Boolean).length`. -/
def wordCount (s : String) : Nat :=
  ((s.data.splitOnP isJsSpace).filter (fun t => !t.isEmpty)).length

/-! ## Data model -/

/-- Open-Graph metadata triple returned by the cheerio-based extractors. -/
structure OpenGraph where
  image : Option String
  title : Option String
  description : Option String
deriving Repr, DecidableEq

def OpenGraph.empty : OpenGraph := ⟨none, none, none⟩

/-- One `<img>` element as cheerio reports it to `extractImages`:
`src`/`data-src`/`alt` attributes (absent = `none`) and the parsed
width/height attributes (`parseInt(attr || "0")`, with `0` for an absent or
non-numeric attribute). -/
structure ImgCand where
  src : Option String
  dataSrc : Option String
  alt : Option String
  width : Nat
  height : Nat
deriving Repr, DecidableEq

/-- An accepted article image (the element type of `ScrapedArticle.images`). -/
structure Img where
  url : String
  alt : String
  caption : String
  width : Nat
  height : Nat
  source : String
deriving Repr, DecidableEq

/-- A feed/API item as `scrapeArticle` receives it.  Absent (`undefined`)
string fields are `none`; timestamps are abstract `Nat` instants. -/
structure FeedItem where
  title : Option String
  link : Option String
  url : Option String
  contentSnippet : Option String
  description : Option String
  content : Option String
  author : Option String
  pubDate : Option Nat
  publishedAtTs : Option Nat
  enclosureUrl : Option String
  mediaUrl : Option String
  thumb : Option String
  urlToImage : Option String
deriving Repr, DecidableEq

/-- A parsed feed document (`feed.items`). -/
structure Feed where
  items : List FeedItem
deriving Repr, DecidableEq

/-- A `Source` document (read-only to the pipeline).  `mid` models
`_id`/`id` (a missing `_id` makes `source.id.toString()` throw). -/
structure SourceDoc where
  mid : Option String
  name : String
  url : String
  lang : Option String
  stype : Option String
  apiUrl : Option String
  rssUrls : List String
  categories : List String
  active : Bool
deriving Repr, DecidableEq

/-- A persisted `Article` document, carrying the fields `Article.create`
writes and the ones the pipeline queries (`hash`, `canonicalUrl`, `slug`,
`language`, `categories`, `categoryDetected`). -/
structure ArticleDoc where
  title : String
  slug : String
  summary : String
  content : String
  images : List Img
  categories : List String
  categoryDetected : Option String
  tags : List String
  author : String
  language : String
  sourceName : String
  sourceId : String
  canonicalUrl : String
  thumbnail : Option String
  wordCount : Nat
  readingTime : Nat
  publishedAt : Nat
  scrapedAt : Nat
  hash : String
deriving Repr, DecidableEq

/-- The article collection, modelled as the list of persisted documents in
insertion order. -/
abbrev Store := List ArticleDoc

def hashExists (st : Store) (h : String) : Bool :=
  st.any (fun a => a.hash = h)

def urlExists (st : Store) (u : String) : Bool :=
  st.any (fun a => a.canonicalUrl = u)

def slugExists (st : Store) (s : String) : Bool :=
  st.any (fun a => a.slug = s)

/-- The value `scrapeArticle` returns for an accepted item (interface
`ScrapedArticle` in `mongoose.ts`). -/
structure ScrapedArticle where
  title : String
  summary : String
  content : String
  images : List Img
  category : String
  tags : List String
  author : String
  lang : String
  sourceUrl : String
  publishedAt : Nat
  hash : String
  openGraph : OpenGraph
deriving Repr, DecidableEq

/-- Network side effects `scrapeArticle` can perform after its cheap
checks: the full-page fetch (`fetchArticleContent`) and the separate
Open-Graph fetch (`extractOpenGraphData`). -/
inductive FetchEvent where
  | page (url : String)
  | og (url : String)
deriving Repr, DecidableEq

/-- Environment of external-library behaviour: axios/cheerio/rss-parser/
crypto/slugify results and the timeout race outcome.  Each field is a fixed
function, so one `ScrapeEnv` describes one deterministic external world
(an "unchanged feed" across two runs is the same `ScrapeEnv`). -/
structure ScrapeEnv where
  /-- `crypto.createHash("sha256").update(s).digest("hex")`. -/
  hashFn : String → String
  /-- `slugify(title, { lower: true, strict: true })`. -/
  slugifyFn : String → String
  /-- `fetchArticleContent(url)`: page HTML, `""` when the request failed
  (that function catches its own errors). -/
  fetchPage : String → String
  /-- `extractOpenGraphFromHtml(html)` (cheerio meta-tag lookup). -/
  ogFromHtml : String → OpenGraph
  /-- `extractOpenGraphData(url)` (fetch + cheerio; `{}` on failure). -/
  ogFetch : String → OpenGraph
  /-- `<img>` candidates under the `i`-th of the six article-scoped
  selectors of `extractImages`, in document order. -/
  selCands : String → Nat → List ImgCand
  /-- `<img>` candidates of the whole-page `$("img")` fallback. -/
  allImgs : String → List ImgCand
  /-- `new URL(src, baseUrl).href`; `none` models the constructor throwing
  (the code catches and skips the candidate). -/
  resolveUrl : String → String → Option String
  /-- Text of the first matching content selector in `cleanContent`
  (falling back to `$("body").text()`), before whitespace clean-up. -/
  mainText : String → String
  /-- `content.match(/By ([A-Z][a-z]+ [A-Z][a-z]+)/)`, first capture. -/
  matchAuthor : String → Option String
  /-- `rssParser.parseURL(url)`: a parsed feed or a thrown error. -/
  parseFeedUrl : String → Except Unit Feed
  /-- Raw-text fetch of a feed URL with feed accept headers. -/
  fetchRaw : String → Except Unit String
  /-- `rssParser.parseString(xml)`. -/
  parseFeedStr : String → Except Unit Feed
  /-- API-source fetch: the `resp.data.articles` list, or a thrown error. -/
  apiGet : String → Except Unit (List FeedItem)
  /-- Outcome of the `Promise.race` against `ARTICLE_SCRAPE_TIMEOUT` for
  one item: `true` means the timeout won and the item is skipped. -/
  slow : FeedItem → Bool

/-! ## Image filtering (`isValidArticleImage`, `extractImages`) -/

/-- The `excludePatterns` list of `isValidArticleImage`, verbatim. -/
def excludePatterns : List String :=
  ["logo", "icon", "avatar", "badge", "button", "banner", "ad",
   "advertisement", "sprite", "pixel", "tracking", "1x1", "blank.gif",
   "spacer.gif"]

/-- Does the lowercased URL or alt text contain one of the exclude
keywords?  (The `for`-loop over `excludePatterns`.) -/
def hasExcludePattern (src alt : String) : Bool :=
  excludePatterns.any (fun p =>
    strIncludes (lowerStr src) p || strIncludes (lowerStr alt) p)

/-- `isValidArticleImage(src, alt, width, height)` from `mongoose.ts`. -/
def isValidArticleImage (src alt : String) (width height : Nat) : Bool :=
  if hasExcludePattern src alt then false
  else if (decide (0 < width) && decide (width < 200)) ||
          (decide (0 < height) && decide (height < 200)) then false
  else true

/-- `const src = $(el).attr("src") || $(el).attr("data-src")` (empty when
both are missing). -/
def candSrc (c : ImgCand) : String := jsOr c.src (jsOr c.dataSrc "")

/-- `const alt = $(el).attr("alt") || "Article image"`. -/
def candAlt (c : ImgCand) : String := jsOr c.alt "Article image"

/-- One selector's candidates put through the per-image body of
`extractImages`: `src || data-src`, default alt, validity filter, URL
resolution (skipping candidates whose resolution throws). -/
def candsToImgs (env : ScrapeEnv) (baseUrl : String) (cs : List ImgCand) :
    List Img :=
  cs.filterMap (fun c =>
    if candSrc c ≠ "" ∧
        isValidArticleImage (candSrc c) (candAlt c) c.width c.height then
      match (if (candSrc c).startsWith "http" then some (candSrc c)
             else env.resolveUrl (candSrc c) baseUrl) with
      | some u => some ⟨u, candAlt c, "", c.width, c.height, "scraped"⟩
      | none => none
    else none)

/-- De-duplication via `new Map(images.map(img => [img.url, img]))`:
first-occurrence key order, last value per key. -/
def dedupByUrl (l : List Img) : List Img :=
  l.foldl (fun acc img =>
    if acc.any (fun x => x.url = img.url) then
      acc.map (fun x => if x.url = img.url then img else x)
    else acc ++ [img]) []

/-- The `/placeholder|default|sprite|spacer|1x1/i` screen plus the
google-preferred screen applied after de-duplication. -/
def placeholderScreen (img : Img) : Bool :=
  let u := lowerStr img.url
  !(strIncludes u "placeholder" || strIncludes u "default" ||
    strIncludes u "sprite" || strIncludes u "spacer" ||
    strIncludes u "1x1") &&
  !(strIncludes u "google" && strIncludes u "preferred")

/-- `extractImages(html, baseUrl, openGraphData)`: article-scoped selectors
first (stopping at the first selector that yields accepted images), then
the whole-page fallback, then de-duplication, the placeholder screen, and
the cap at 5.  (The `openGraphData` argument of the source function is
unused by its body.) -/
def extractImages (env : ScrapeEnv) (html baseUrl : String) : List Img :=
  let fromSelectors :=
    (List.range 6).foldl (fun acc i =>
      if acc.isEmpty then candsToImgs env baseUrl (env.selCands html i)
      else acc) []
  let imgs :=
    if fromSelectors.isEmpty then candsToImgs env baseUrl (env.allImgs html)
    else fromSelectors
  ((dedupByUrl imgs).filter placeholderScreen).take 5

/-! ## Category detection (`determineCategory` in `ScrapingService`) -/

/-- The fixed keyword table of `ScrapingService.determineCategory`,
verbatim and in object-literal iteration order. -/
def mKeywords : List (String × List String) := [
  ("politics", ["politics", "government", "election", "president", "senate"]),
  ("world", ["world", "international", "global", "foreign"]),
  ("sports", ["sports", "football", "basketball", "soccer", "tennis"]),
  ("tech", ["technology", "tech", "software", "ai", "computer", "internet"]),
  ("health", ["health", "medical", "doctor", "hospital", "medicine"]),
  ("ai", ["ai", "artificial intelligence", "machine learning"]),
  ("cyber", ["cybersecurity", "hacking", "malware", "ransomware", "breach"]),
  ("movies", ["movies", "film", "cinema", "bollywood", "hollywood"]),
  ("stocks", ["stocks", "market", "shares", "trading", "equity"]),
  ("hindi", ["hindi"]),
  ("telugu", ["telugu"])]

/-- `ScrapingService.determineCategory(title, summary, sourceCategories)`:
first keyword table entry with a substring hit in the lowercased
`title + " " + summary`, else the first source-declared category, else
`null`. -/
def determineCategory (title summary : String) (sourceCats : List String) :
    Option String :=
  let text := lowerStr (title ++ " " ++ summary)
  match mKeywords.find? (fun p => p.2.any (fun kw => strIncludes text kw)) with
  | some p => some p.1
  | none => sourceCats.head?

/-! ## Tags, authors, content clean-up -/

/-- First-occurrence de-duplication, as `Array.from(new Set(xs))`. -/
def firstDedup (l : List String) : List String :=
  l.foldl (fun acc w => if acc.contains w then acc else acc ++ [w]) []

/-- `extractTags(title, summary, content)`. -/
def extractTags (title summary content : String) : List String :=
  let words :=
    ((lowerStr (title ++ " " ++ summary ++ " " ++ content)).data.splitOnP
        (fun c => !isWordChar c)).map String.mk
  let words := words.filter (fun w => w.length > 4)
  firstDedup (words.take 10)

/-- `cleanContent(html)`: empty in, empty out; otherwise the text of the
first matching content container (environment), whitespace-collapsed,
trimmed, capped at 5000. -/
def cleanContent (env : ScrapeEnv) (html : String) : String :=
  if html = "" then ""
  else
    (String.mk (trimWs (collapseWs (env.mainText html).data))).take 5000

/-! ## Slug collision resolution

The insert loop of `scrapeAllSources` runs

```
let slug = baseSlug; let slugSuffix = 1;
while (await Article.findOne({ slug })) {
  slug = `${baseSlug}-${Date.now()}-${slugSuffix}`;
  slugSuffix++;
}
```

i.e. it walks the candidate sequence `baseSlug`,
`baseSlug-now-1`, `baseSlug-now-2`, … and stops at the first candidate not
present in the store.  `resolveSlug` below computes exactly that first
fresh candidate; the existence proof (candidates with distinct counters
are distinct strings, and the store is finite) doubles as the loop's
termination argument. -/

/-- The `k`-th slug candidate the collision loop tries. -/
def slugCandidate (base : String) (now : Nat) : Nat → String
  | 0 => base
  | k + 1 => base ++ "-" ++ decNat now ++ "-" ++ decNat (k + 1)

theorem slugCandidate_succ_injective (base : String) (now : Nat)
    {j k : Nat} (h : slugCandidate base now (j + 1) = slugCandidate base now (k + 1)) :
    j = k := by
  have hdata := congrArg String.data h
  simp only [slugCandidate, String.data_append, List.append_assoc,
    List.singleton_append] at hdata
  have h2 := List.append_cancel_left hdata
  simp only [List.cons.injEq, true_and] at h2
  have h3 := List.append_cancel_left h2
  simp only [List.cons.injEq, true_and] at h3
  have : (decNat (j + 1)).data = (decNat (k + 1)).data := h3
  have : decNat (j + 1) = decNat (k + 1) := by
    cases hj : decNat (j + 1); cases hk : decNat (k + 1)
    simp_all
  have := decNat_injective this
  omega

theorem slug_fresh_exists (st : Store) (base : String) (now : Nat) :
    ∃ k, slugExists st (slugCandidate base now k) = false := by
  by_contra hall
  push_neg at hall
  have hmem : ∀ k : Nat, slugCandidate base now k ∈ (st.map ArticleDoc.slug).toFinset := by
    intro k
    have h := hall k
    have : slugExists st (slugCandidate base now k) = true := by
      cases hv : slugExists st (slugCandidate base now k)
      · exact absurd hv h
      · rfl
    simp only [slugExists, List.any_eq_true] at this
    obtain ⟨a, ha, hslug⟩ := this
    simp only [List.mem_toFinset, List.mem_map]
    exact ⟨a, ha, by simpa using hslug.symm⟩
  have hinj : Set.InjOn (fun k => slugCandidate base now (k + 1))
      ↑(Finset.range (st.length + 1)) := by
    intro a _ b _ hab
    exact slugCandidate_succ_injective base now hab
  have hcard := Finset.card_le_card_of_injOn
    (fun k => slugCandidate base now (k + 1))
    (fun a _ => hmem (a + 1)) hinj
  have h1 : (Finset.range (st.length + 1)).card = st.length + 1 := Finset.card_range _
  have h2 : (st.map ArticleDoc.slug).toFinset.card ≤ st.length := by
    calc (st.map ArticleDoc.slug).toFinset.card
        ≤ (st.map ArticleDoc.slug).length := (st.map ArticleDoc.slug).toFinset_card_le
      _ = st.length := List.length_map _ _
  omega

/-- The slug the collision loop settles on: the first candidate (in loop
order) that no persisted article already uses. -/
def resolveSlug (st : Store) (base : String) (now : Nat) : String :=
  slugCandidate base now (Nat.find (slug_fresh_exists st base now))

theorem resolveSlug_fresh (st : Store) (base : String) (now : Nat) :
    slugExists st (resolveSlug st base now) = false :=
  Nat.find_spec (slug_fresh_exists st base now)

/-! ## Identity rotation (module-level state in `mongoose.ts`) -/

/-- The `USER_AGENTS` pool, verbatim. -/
def USER_AGENTS : List String := [
  "Mozilla/5.0 (Windows NT 10.0; Win64; x64) AppleWebKit/537.36 (KHTML, like Gecko) Chrome/120.0.0.0 Safari/537.36",
  "Mozilla/5.0 (Macintosh; Intel Mac OS X 10_15_7) AppleWebKit/537.36 (KHTML, like Gecko) Chrome/120.0.0.0 Safari/537.36",
  "Mozilla/5.0 (X11; Linux x86_64) AppleWebKit/537.36 (KHTML, like Gecko) Chrome/120.0.0.0 Safari/537.36",
  "Mozilla/5.0 (Windows NT 10.0; Win64; x64; rv:109.0) Gecko/20100101 Firefox/121.0",
  "Mozilla/5.0 (Macintosh; Intel Mac OS X 10.15; rv:109.0) Gecko/20100101 Firefox/121.0",
  "Mozilla/5.0 (X11; Linux x86_64; rv:109.0) Gecko/20100101 Firefox/121.0",
  "Mozilla/5.0 (Macintosh; Intel Mac OS X 10_15_7) AppleWebKit/605.1.15 (KHTML, like Gecko) Version/17.1 Safari/605.1.15",
  "Mozilla/5.0 (Windows NT 10.0; Win64; x64) AppleWebKit/537.36 (KHTML, like Gecko) Edge/120.0.0.0 Safari/537.36"]

/-- The `PROXY_LIST` pool (host, port, protocol), verbatim. -/
def PROXY_LIST : List (String × Nat × String) :=
  [("8.8.8.8", 80, "http"), ("1.1.1.1", 80, "http")]

/-- The module-level mutable cells `currentProxyIndex` and
`currentUserAgentIndex` of `mongoose.ts`.  They are declared with `let` at
file scope, outside the `ScrapingService` class, so every instance of the
class in the process reads and writes this one state. -/
structure RotationState where
  proxyIdx : Nat
  uaIdx : Nat
deriving Repr, DecidableEq

/-- `getNextUserAgent()`: read the shared index, advance it modulo the pool
size. -/
def getNextUserAgent (s : RotationState) : String × RotationState :=
  (USER_AGENTS.getD s.uaIdx "",
   { s with uaIdx := (s.uaIdx + 1) % USER_AGENTS.length })

/-- `getNextProxy()`. -/
def getNextProxy (s : RotationState) : (String × Nat × String) × RotationState :=
  (PROXY_LIST.getD s.proxyIdx ("", 0, ""),
   { s with proxyIdx := (s.proxyIdx + 1) % PROXY_LIST.length })

/-! ## Feed acquisition with fallback -/

/-- `retryRequest(requestFn, maxRetries = 3)`.  The environment functions
are fixed, so every attempt of one call returns the same value: the retry
loop either succeeds on the first attempt or exhausts its retries and
rethrows that same error.  `0` allowed retries throws
`'Max retries exceeded'`. -/
def retryRequest {α : Type} (maxRetries : Nat) (attempt : Except Unit α) :
    Except Unit α :=
  match maxRetries with
  | 0 => .error ()
  | _ + 1 => attempt

/-- One attempt of the feed fetch in `ScrapingService.scrapeSource`:
`rssParser.parseURL(rssUrl)`, and only when that throws, the manual
raw-XML fetch followed by `rssParser.parseString`. -/
def fetchFeedAttempt (env : ScrapeEnv) (url : String) : Except Unit Feed :=
  match env.parseFeedUrl url with
  | .ok f => .ok f
  | .error _ =>
    match env.fetchRaw url with
    | .error e => .error e
    | .ok txt => env.parseFeedStr txt

/-- The feed fetch of `ScrapingService.scrapeSource` (attempt wrapped in
`retryRequest`). -/
def fetchFeed (env : ScrapeEnv) (url : String) : Except Unit Feed :=
  retryRequest 3 (fetchFeedAttempt env url)

/-- The fallback branch of `scripts/runScraper.ts`:
`fetchWithFallback(rssUrl)` (its internal relay cascade collapsed into the
environment's raw fetch) followed by `parseString`, accepted only when it
yields at least one item. -/
def scriptFallbackFeed (env : ScrapeEnv) (url : String) : Option Feed :=
  match env.fetchRaw url with
  | .error _ => none
  | .ok d =>
    match env.parseFeedStr d with
    | .error _ => none
    | .ok p => if p.items.isEmpty then none else some p

/-- The feed acquisition of `scripts/runScraper.ts` (lines 502–537):
primary `parseURL`; on throw, the fallback; then, if the feed is still
missing or empty, the fallback once more; an empty end result is dropped
(`continue`). -/
def acquireFeedScript (env : ScrapeEnv) (url : String) : Option Feed :=
  let feed0 : Option Feed :=
    match env.parseFeedUrl url with
    | .ok f => some f
    | .error _ => scriptFallbackFeed env url
  let feed1 : Option Feed :=
    match feed0 with
    | none => scriptFallbackFeed env url
    | some f =>
      if f.items.isEmpty then
        match scriptFallbackFeed env url with
        | some p => some p
        | none => some f
      else some f
  match feed1 with
  | none => none
  | some f => if f.items.isEmpty then none else some f

/-- The hash input at the `generateHash` call site of
`scripts/runScraper.ts`:
`item.link || item.title || JSON.stringify(item).slice(0, 200)`
(`itemJson` supplies the external `JSON.stringify(item)`). -/
def runScraperHashInput (item : FeedItem) (itemJson : String) : String :=
  jsOr item.link (jsOr item.title (itemJson.take 200))

/-- The hash input in `ScrapingService.scrapeArticle`:
`title + summary + source.id.toString()`. -/
def serviceHashInput (title summary sid : String) : String :=
  title ++ summary ++ sid

/-! ## Dynamic category creation (`scripts/runScraper.ts`) -/

/-- A persisted `Category` document (fields used by
`createDynamicCategory`). -/
structure CategoryDoc where
  key : String
  label : String
  icon : String
  color : String
  order : Nat
  active : Bool
  language : Option String
  isDynamic : Bool
deriving Repr, DecidableEq

/-- `categoryLabels`, verbatim. -/
def categoryLabels : List (String × String) := [("general", "General"), ("politics", "Politics"), ("sports", "Sports"), ("entertainment", "Entertainment"), ("technology", "Technology"), ("health", "Health"), ("business", "Business"), ("education", "Education"), ("crime", "Crime"), ("weather", "Weather"), ("science", "Science"), ("travel", "Travel"), ("food", "Food"), ("fashion", "Fashion"), ("automobile", "Automobile"), ("realestate", "Real Estate")]

/-- `categoryIcons`, verbatim. -/
def categoryIcons : List (String × String) := [("general", "newspaper"), ("politics", "landmark"), ("sports", "trophy"), ("entertainment", "film"), ("technology", "laptop"), ("health", "heart"), ("business", "briefcase"), ("education", "graduation-cap"), ("crime", "shield"), ("weather", "cloud-sun"), ("science", "flask"), ("travel", "map"), ("food", "utensils"), ("fashion", "shirt"), ("automobile", "car"), ("realestate", "home")]

/-- `categoryColors`, verbatim. -/
def categoryColors : List (String × String) := [("general", "#9CA3AF"), ("politics", "#EF4444"), ("sports", "#10B981"), ("entertainment", "#8B5CF6"), ("technology", "#3B82F6"), ("health", "#F59E0B"), ("business", "#06B6D4"), ("education", "#84CC16"), ("crime", "#DC2626"), ("weather", "#0EA5E9"), ("science", "#7C3AED"), ("travel", "#059669"), ("food", "#D97706"), ("fashion", "#EC4899"), ("automobile", "#6B7280"), ("realestate", "#B45309")]

/-- `table[key] || default`. -/
def lookupD (tbl : List (String × String)) (k d : String) : String :=
  match tbl.find? (fun p => p.1 = k) with
  | some p => p.2
  | none => d

/-- `s.charAt(0).toUpperCase() + s.slice(1)`. -/
def capitalizeFirst (s : String) : String :=
  match s.data with
  | [] => ""
  | c :: rest => String.mk (c.toUpper :: rest)

/-- The `Article.countDocuments` filter of `createDynamicCategory`:
`{ language, $or: [{ categories: detected }, { categoryDetected: detected }] }`. -/
def articleMatchesDetected (detected language : String) (a : ArticleDoc) : Bool :=
  a.language = language &&
    (a.categories.contains detected || a.categoryDetected = some detected)

/-- `createDynamicCategory(detectedCategory, language)`: never for
`general`/`uncategorized`/empty; reuse an existing category with that key
for the language (or with no language scope); otherwise create a new
`isDynamic` category only when at least 10 persisted articles in that
language already carry the detected category.  Returns the found/created
category (the `_id` the caller uses) and the updated category
collection. -/
def createDynamicCategory (cats : List CategoryDoc) (st : Store)
    (detected language : String) : Option CategoryDoc × List CategoryDoc :=
  if detected = "" || detected = "general" || detected = "uncategorized" then
    (none, cats)
  else
    match cats.find? (fun c =>
        c.key = detected && (c.language = some language || c.language = none)) with
    | some c => (some c, cats)
    | none =>
      let articleCount := (st.filter (articleMatchesDetected detected language)).length
      if 10 ≤ articleCount then
        let newCat : CategoryDoc :=
          { key := detected,
            label := lookupD categoryLabels detected (capitalizeFirst detected),
            icon := lookupD categoryIcons detected "newspaper",
            color := lookupD categoryColors detected "#9CA3AF",
            order := 100, active := true,
            language := some language, isDynamic := true }
        (some newCat, cats ++ [newCat])
      else (none, cats)

/-! ## Content classifier (`computeCategoryFromText` in `scripts/runScraper.ts`) -/

/-- The language-code normalization map (`langMap`). -/
def langMap : List (String × String) :=
  [("te", "telugu"), ("ta", "tamil"), ("hi", "hindi"), ("bn", "bengali"),
   ("gu", "gujarati"), ("mr", "marathi"), ("en", "english")]

/-- `langMap[language?.toLowerCase() || ''] || language?.toLowerCase() || 'english'`. -/
def normalizedLangOf (language : Option String) : String :=
  let l := lowerStr (language.getD "")
  match langMap.find? (fun p => p.1 = l) with
  | some p => p.2
  | none => if l = "" then "english" else l

/-- Does the word contain a character in the inclusive code-point range? -/
def containsRange (lo hi : Nat) (w : String) : Bool :=
  w.data.any (fun c => lo ≤ c.toNat && c.toNat ≤ hi)

/-- The `/^[a-z]+$/i` test used for the `english` branch. -/
def isAsciiAlphaWord (w : String) : Bool :=
  !w.data.isEmpty &&
    w.data.all (fun c => ('a' ≤ c && c ≤ 'z') || ('A' ≤ c && c ≤ 'Z'))

/-- The per-word language filter inside the scoring loop: keep only words of
the script block matching the normalized language; unknown languages keep
everything. -/
def scriptFilter (nl : String) (w : String) : Bool :=
  if nl = "telugu" then containsRange 0xC00 0xC7F w
  else if nl = "hindi" then containsRange 0x900 0x97F w
  else if nl = "tamil" then containsRange 0xB80 0xBFF w
  else if nl = "bengali" then containsRange 0x980 0x9FF w
  else if nl = "gujarati" then containsRange 0xA80 0xAFF w
  else if nl = "marathi" then containsRange 0x900 0x97F w
  else if nl = "english" then isAsciiAlphaWord w
  else true

/-- `Math.floor(n * 0.7)` for the string lengths appearing here (the IEEE
double product agrees with exact rational arithmetic on them). -/
def jsFloor07 (n : Nat) : Nat := 7 * n / 10

/-- The `partialMatch(t, k)` helper: full substring hit, or a stem
(`k.slice(0, max(3, floor(0.7·|k|)))` of length ≥ 3) substring hit;
keywords shorter than 3 never match. -/
def kwMatch (t k : String) : Bool :=
  if k.length < 3 then false
  else if strIncludes t k then true
  else
    let stem := k.take (max 3 (jsFloor07 k.length))
    decide (3 ≤ stem.length) && strIncludes t stem

/-- The `normalize` arrow function: lowercase, strip zero-width characters,
replace punctuation/symbols (`\p{P}\p{S}`, supplied as the predicate
`isPS` since the Unicode category tables live in the JS regex engine) by a
blank, collapse whitespace, trim. -/
def normalizeText (isPS : Char → Bool) (s : String) : String :=
  String.mk (trimWs (collapseWs
    (((s.data.map Char.toLower).filter (fun c => !isZeroWidth c)).map
      (fun c => if isPS c then ' ' else c))))

/-- The `politics` keyword list of the classifier dictionary, verbatim. -/
def politicsKeys : List String := ["politics", "political", "election", "elections", "minister", "government", "parliament", "assembly", "mla", "mp", "party", "pm", "president", "congress", "bjp", "tdp", "ysr", "trs", "aap", "cabinet", "opposition", "vote", "voting", "campaign", "రాజకీయ", "ఎన్నిక", "ఎన్నికలు", "మంత్రి", "ప్రభుత్వ", "అసెంబ్లీ", "పార్టీ", "ముఖ్యమంత్రి", "అధ్యక్షుడు", "ఎంపీ", "ఎంఎల్ఏ", "నేత", "నాయకుడు", "ప్రతిపక్షం", "ఓటు", "ఓటింగ్", "క్యాబినెట్", "ராஜகியம்", "ராஜகிய", "தேர்தல்", "அரசு", "மந்திரி", "பாராளுமன்றம்", "சட்டமன்றம்", "கட்சி", "பிரதமர்", "எம்எல்ஏ", "எம்பி", "எதிர்க்கட்சிகள்", "வாக்கு", "வாக்குப்பதிவு", "राजनीति", "चुनाव", "मंत्री", "सरकार", "संसद", "विधानसभा", "पार्टी", "मुख्यमंत्री", "राष्ट्रपति", "सांसद", "विधायक", "नेता", "विपक्ष", "मतदान", "अभियान", "রাজনীতি", "নির্বাচন", "মন্ত্রী", "সরকার", "সংসদ", "বিধানসভা", "দল", "মুখ্যমন্ত্রী", "রাষ্ট্রপতি", "সাংসদ", "বিধায়ক", "নেতা", "বিরোধী", "ভোট", "প্রচার", "રાજકારણ", "ચૂંટણી", "મંત્રી", "સરકાર", "સંસદ", "વિધાનસભા", "પક્ષ", "મુખ્યમંત્રી", "રાષ્ટ્રપતિ", "સાંસદ", "વિધાયક", "નેતા", "વિરોધી", "મતદાન", "અભિયાન", "राजकारण", "निवडणूक", "मंत्री", "सरकार", "संसद", "विधानसभा", "पक्ष", "मुख्यमंत्री", "राष्ट्रपती", "खासदार", "आमदार", "नेता", "विरोधी", "मतदान", "मोहीम"]

/-- The `sports` keyword list of the classifier dictionary, verbatim. -/
def sportsKeys : List String := ["sports", "sport", "cricket", "football", "soccer", "tennis", "badminton", "hockey", "ipl", "match", "player", "tournament", "score", "goal", "winner", "loser", "series", "league", "cup", "క్రీడ", "క్రీడలు", "క్రీడల", "క్రీడలలో", "ఆట", "ఆటలు", "మ్యాచ్", "మ్యాచ్‌లు", "మ్యాచులు", "ఫలితాలు", "జట్టు", "జట్లు", "జట్టులో", "ప్లేయర్", "ప్లేయర్లు", "ఆటగాడు", "ఆటగాళ్లు", "విజయం", "ఓటమి", "ర్యాంకింగ్", "సిరీస్", "లీగ్", "కప్", "క్రికెట్", "ఫుట్బాల్", "టెన్నిస్", "బ్యాడ్మింటన్", "హాకీ", "விளையாட்டு", "விளையாட்டுகள்", "கிரிக்கெட்", "கால்பந்து", "டென்னிஸ்", "பேட்மிண்டன்", "ஹாக்கி", "போட்டி", "மேட்ச்", "அணி", "வீரர்", "ஸ்கோர்", "லீக்", "கப்", "खेल", "क्रिकेट", "फुटबॉल", "टेनिस", "बैडमिंटन", "हॉकी", "मैच", "खिलाड़ी", "टूर्नामेंट", "स्कोर", "गोल", "विजेता", "हारनेवाला", "सीरीज", "लीग", "कप", "খেলা", "ক্রিকেট", "ফুটবল", "টেনিস", "ব্যাডমিন্টন", "হকি", "ম্যাচ", "খেলোয়াড়", "টুর্নামেন্ট", "স্কোর", "গোল", "বিজয়ী", "পরাজিত", "সিরিজ", "লিগ", "কাপ", "રમત", "ક્રિકેટ", "ફુટબોલ", "ટેનિસ", "બેડમિન્ટન", "હોકી", "મેચ", "રમતવીર", "ટુર્નામેન્ટ", "સ્કોર", "ગોલ", "વિજેતા", "હારનાર", "સિરિઝ", "લીગ", "કપ", "खेळ", "क्रिकेट", "फुटबॉल", "टेनिस", "बॅडमिंटन", "हॉकी", "सामना", "खेळाडू", "स्पर्धा", "गोल", "विजेता", "हरलेला", "मालिका", "लीग", "कप"]

/-- The `entertainment` keyword list of the classifier dictionary, verbatim. -/
def entertainmentKeys : List String := ["entertainment", "movie", "movies", "film", "cinema", "actor", "actress", "director", "trailer", "song", "review", "bollywood", "tollywood", "kollywood", "box office", "సినిమా", "చిత్రం", "చలనచిత్రం", "నటుడు", "నటి", "హీరో", "హీరోయిన్", "దర్శకుడు", "ట్రైలర్", "పాట", "సాంగ్", "సమీక్ష", "రివ్యూ", "బాక్సాఫీస్", "బాక్స్ ఆఫీస్", "టాలీవుడ్", "బాలీవుడ్", "కోలీవుడ్", "వెబ్ సిరీస్", "సీరియల్", "பொழுதுபோக்கு", "திரைப்படம்", "சினிமா", "நடிகர்", "நடிகை", "இயக்குனர்", "டிரைலர்", "பாடல்", "விமர்சனம்", "பாக்ஸ் ஆபிஸ்", "காலிவுட்", "கொலிவுட்", "தொலைக்காட்சி", "मनोरंजन", "फिल्म", "सिनेमा", "अभिनेता", "अभिनेत्री", "निर्देशक", "ट्रेलर", "गाना", "समीक्षा", "बॉलीवुड", "टॉलीवुड", "कोलीवुड", "बॉक्स ऑफिस", "বিনোদন", "চলচ্চিত্র", "সিনেমা", "অভিনেতা", "অভিনেত্রী", "পরিচালক", "ট্রেইলার", "গান", "সমালোচনা", "বলিউড", "টলিউড", "কলিউড", "বক্স অফিস", "મનોરંજન", "ફિલ્મ", "સિનેમા", "અભિનેતા", "અભિનેત્રી", "દિગ્દર્શક", "ટ્રેલર", "ગીત", "સમીક્ષા", "બોલીવુડ", "ટોલીવુડ", "કોલીવુડ", "બોક્સ ઓફિસ", "मनोरंजन", "चित्रपट", "सिनेमा", "अभिनेता", "अभिनेत्री", "दिग्दर्शक", "ट्रेलर", "गाणे", "समीक्षा", "बॉलिवूड", "टॉलिवूड", "कोलिवूड", "बॉक्स ऑफिस"]

/-- The `technology` keyword list of the classifier dictionary, verbatim. -/
def technologyKeys : List String := ["technology", "tech", "gadget", "smartphone", "mobile", "ai", "artificial intelligence", "software", "internet", "robot", "startup", "app", "update", "chip", "semiconductor", "టెక్నాలజీ", "సాంకేతికం", "సాంకేతిక", "గాడ్జెట్", "మొబైల్", "స్మార్ట్‌ఫోన్", "కృత్రిమ మేధస్సు", "ఎఐ", "సాఫ్ట్‌వేర్", "ఇంటర్నెట్", "రోబోట్", "స్టార్టప్", "యాప్", "అప్డేట్", "చిప్", "தொழில்நுட்பம்", "டெக்", "கேட்ஜெட்", "ஸ்மார்ட்போன்", "மொபைல்", "கணினி", "மென்பொருள்", "இணையம்", "ரோபோட்", "ஸ்டார்ட்அப்", "சிப்", "புதுப்பிப்பு", "तकनीक", "गैजेट", "स्मार्टफोन", "मोबाइल", "कृत्रिम बुद्धिमत्ता", "सॉफ्टवेयर", "इंटरनेट", "रोबोट", "स्टार्टअप", "ऐप", "अपडेट", "चिप", "প্রযুক্তি", "গ্যাজেট", "স্মার্টফোন", "মোবাইল", "কৃত্রিম বুদ্ধিমত্তা", "সফটওয়্যার", "ইন্টারনেট", "রোবট", "স্টার্টআপ", "অ্যাপ", "আপডেট", "চিপ", "ટેકનોલોજી", "ગેજેટ", "સ્માર્ટફોન", "મોબાઇલ", "કૃત્રિમ બુદ્ધિ", "સોફ્ટવેર", "ઇન્ટરનેટ", "રોબોટ", "સ્ટાર્ટઅપ", "એપ", "અપડેટ", "ચિપ", "तंत्रज्ञान", "गॅजेट", "स्मार्टफोन", "मोबाइल", "कृत्रिम बुद्धिमत्ता", "सॉफ्टवेअर", "इंटरनेट", "रोबोट", "स्टार्टअप", "अॅप", "अपडेट", "चिप"]

/-- The `health` keyword list of the classifier dictionary, verbatim. -/
def healthKeys : List String := ["health", "hospital", "doctor", "covid", "vaccine", "medical", "fitness", "disease", "therapy", "treatment", "medicine", "ఆరోగ్యం", "ఆరోగ్య", "ఆసుపత్రి", "హాస్పిటల్", "డాక్టర్", "వ్యాక్సిన్", "టీకా", "వైద్యం", "వ్యాధి", "జబ్బు", "చికిత్స", "ఔషధం", "ఫిట్‌నెస్", "ஆரோக்கியம்", "மருத்துவமனை", "டாக்டர்", "தடுப்பூசி", "மருத்துவம்", "நோய்", "சிகிச்சை", "மருந்து", "स्वास्थ्य", "अस्पताल", "डॉक्टर", "कोविड", "टीका", "चिकित्सा", "फिटनेस", "बीमारी", "उपचार", "दवा", "স্বাস্থ্য", "হাসপাতাল", "ডাক্তার", "কোভিড", "টিকা", "চিকিৎসা", "ফিটনেস", "রোগ", "চিকিৎসা", "ঔষধ", "સ્વાસ્થ્ય", "હોસ્પિટલ", "ડૉક્ટર", "કોવિડ", "વેક્સિન", "દવા", "ફિટનેસ", "રોગ", "ઉપચાર", "દવા", "आरोग्य", "दवाखाना", "डॉक्टर", "कोविड", "लस", "वैद्यकीय", "फिटनेस", "रोग", "उपचार", "औषध"]

/-- The `business` keyword list of the classifier dictionary, verbatim. -/
def businessKeys : List String := ["business", "market", "stock", "share", "company", "finance", "banking", "economy", "revenue", "profit", "startup", "funding", "వ్యాపారం", "వ్యాపార", "వ్యాపారవేత్త", "వ్యాపారవేత్తలు", "మార్కెట్", "మార్కెట్లలో", "స్టాక్", "షేర్", "షేర్లు", "కంపెనీ", "ఫైనాన్స్", "బ్యాంకింగ్", "ఆర్థిక", "ద్రవ్యోల్బణం", "ఆదాయం", "లాభం", "నష్టం", "నష్టాలు", "வணிகம்", "சந்தை", "பங்கு", "நிறுவனம்", "நிதி", "வங்கி", "பொருளாதாரம்", "வருவாய்", "லாபம்", "நஷ்டம்", "நிதியுதவி", "व्यापार", "बाजार", "शेयर", "कंपनी", "वित्त", "बैंकिंग", "अर्थव्यवस्था", "राजस्व", "लाभ", "स्टार्टअप", "निधि", "ব্যবসা", "বাজার", "শেয়ার", "কোম্পানি", "অর্থ", "ব্যাংকিং", "অর্থনীতি", "রাজস্ব", "লাভ", "স্টার্টআপ", "তহবিল", "વ્યવસાય", "બજાર", "શેર", "કંપની", "ફાઇનાન્સ", "બેંકિંગ", "અર્થતંત્ર", "રાજસ્વ", "લાભ", "સ્ટાર્ટઅપ", "ફંડિંગ", "व्यवसाय", "बाजार", "शेअर", "कंपनी", "वित्त", "बँकिंग", "अर्थव्यवस्था", "राजस्व", "नफा", "स्टार्टअप", "निधी"]

/-- The `education` keyword list of the classifier dictionary, verbatim. -/
def educationKeys : List String := ["education", "exam", "results", "student", "school", "college", "university", "admission", "scholarship", "విద్య", "పరీక్ష", "ఫలితాలు", "విద్యార్థి", "పాఠశాల", "కళాశాల", "విశ్వవిద్యాలయం", "దాఖలాలు", "వేతనం", "கல்வி", "தேர்வு", "முடிவுகள்", "மாணவர்", "பள்ளி", "கல்லூரி", "பல்கலைக்கழகம்", "சேர்க்கை", "உதவித்தொகை", "शिक्षा", "परीक्षा", "परिणाम", "छात्र", "स्कूल", "कॉलेज", "विश्वविद्यालय", "प्रवेश", "छात्रवृत्ति", "শিক্ষা", "পরীক্ষা", "ফলাফল", "ছাত্র", "স্কুল", "কলেজ", "বিশ্ববিদ্যালয়", "ভর্তি", "বৃত্তি", "શિક્ષણ", "પરીક્ષા", "પરિણામ", "વિદ્યાર્થી", "શાળા", "કોલેજ", "યુનિવર્સિટી", "પ્રવેશ", "છાત્રવૃત્તિ", "शिक्षण", "परीक्षा", "निकाल", "विद्यार्थी", "शाळा", "कॉलेज", "विश्वविद्यालय", "प्रवेश", "शिष्यवृत्ती"]

/-- The `crime` keyword list of the classifier dictionary, verbatim. -/
def crimeKeys : List String := ["crime", "police", "murder", "theft", "robbery", "scam", "fraud", "arrest", "assault", "violence", "క్రైమ్", "నేరం", "నేరాలు", "పోలీసు", "హత్య", "హత్యలు", "దొంగతనం", "దొంగతనాలు", "దొంగలు", "దోపిడీ", "మోసం", "అరెస్ట్", "అరెస్టు", "కోర్టు", "కోర్టులో", "దాడి", "హింస", "నేరస్థుడు", "నేరస్థులు", "குற்றம்", "காவல்துறை", "கொலை", "திருட்டு", "கொள்ளை", "மோசடி", "கைது", "தாக்குதல்", "வன்முறை", "अपराध", "पुलिस", "हत्या", "चोरी", "डकैती", "घोटाला", "धोखाधड़ी", "गिरफ्तारी", "हमला", "हिंसा", "অপরাধ", "পুলিশ", "খুন", "চুরি", "ডাকাতি", "কেলেঙ্কারি", "জালিয়াতি", "গ্রেফতার", "আক্রমণ", "সহিংসতা", "અપરાધ", "પોલીસ", "હત્યા", "ચોરી", "ડકાઈ", "ઘોટાલો", "ધોકાધડી", "ગિરફતારી", "હુમલો", "હિંસા", "गुन्हा", "पोलिस", "खून", "चोरी", "दरोडा", "घोटाळा", "फसवणूक", "अटक", "हल्ला", "हिंसा"]

/-- The multilingual keyword dictionary (`dict`), verbatim and in
object-literal iteration order. -/
def classifierDict : List (String × List String) := [("politics", politicsKeys), ("sports", sportsKeys), ("entertainment", entertainmentKeys), ("technology", technologyKeys), ("health", healthKeys), ("business", businessKeys), ("education", educationKeys), ("crime", crimeKeys)]

/-- The score the loop body computes for one category: over the
language-filtered keywords, add `max(1, floor(|k| / 4))` per match. -/
def categoryScore (nl text : String) (keys : List String) : Nat :=
  (keys.filter (scriptFilter nl)).foldl
    (fun acc k => if kwMatch text k then acc + max 1 (k.length / 4) else acc) 0

/-- `computeCategoryFromText(title, summary, content, language)`. -/
def computeCategoryFromText (isPS : Char → Bool)
    (title summary content : String) (language : Option String) : String :=
  let text := normalizeText isPS (title ++ " " ++ summary ++ " " ++ content)
  let nl := normalizedLangOf language
  let result := classifierDict.foldl (fun best p =>
    let score := categoryScore nl text p.2
    if best.2 < score then (p.1, score) else best) ("general", 0)
  if 0 < result.2 then result.1 else "general"

/-! ## The per-item pipeline (`ScrapingService.scrapeArticle`) -/

/-- `const title = item.title || ""`. -/
def itemTitle (it : FeedItem) : String := jsOr it.title ""

/-- `const link = item.link || item.url || ""`. -/
def itemLink (it : FeedItem) : String := jsOr it.link (jsOr it.url "")

/-- `const summary = item.contentSnippet || item.description || item.content || ""`. -/
def itemSummary (it : FeedItem) : String :=
  jsOr it.contentSnippet (jsOr it.description (jsOr it.content ""))

/-- `scrapeArticle(item, source, options)`.

Returns the optional `ScrapedArticle` together with the list of network
fetches the call performs after its guards (the page fetch of
`fetchArticleContent` and the separate Open-Graph fetch of
`extractOpenGraphData`).  The function only reads the article store (the
`Article.findOne({ hash })` duplicate probe); it never writes it.

The `none` results model the source's `return null` paths: missing
title/link, an existing article with the same hash, and the catch-all
(`catch` → `return null`) — the one throwing sub-expression inside the
embedding's scope is `source.id.toString()` on a source without an id,
modelled by `src.mid = none`. -/
def scrapeArticle (env : ScrapeEnv) (st : Store) (item : FeedItem)
    (src : SourceDoc) (fast : Bool) (now : Nat) :
    Option ScrapedArticle × List FetchEvent :=
  let title := itemTitle item
  let link := itemLink item
  let summary := itemSummary item
  let publishedAt :=
    match item.pubDate, item.publishedAtTs with
    | some t, _ => t
    | none, some t => t
    | none, none => now
  if title = "" ∨ link = "" then (none, [])
  else
    match src.mid with
    | none => (none, [])
    | some sid =>
      let hash := env.hashFn (serviceHashInput title summary sid)
      if hashExists st hash then (none, [])
      else
        let isApi := src.stype = some "api"
        let fullContent := if fast || isApi then "" else env.fetchPage link
        let pageEvents : List FetchEvent :=
          if fast || isApi then [] else [FetchEvent.page link]
        let ogData :=
          if fast then OpenGraph.empty
          else if fullContent ≠ "" then env.ogFromHtml fullContent
          else env.ogFetch link
        let ogEvents : List FetchEvent :=
          if fast then []
          else if fullContent ≠ "" then []
          else [FetchEvent.og link]
        let images0 :=
          if !fast && fullContent ≠ "" then extractImages env fullContent link
          else []
        let images1 :=
          if images0.isEmpty then
            let rssImg := jsOr item.enclosureUrl (jsOr item.mediaUrl (jsOr item.thumb ""))
            if rssImg ≠ "" ∧ isValidArticleImage rssImg title 0 0 then
              match (if rssImg.startsWith "http" then some rssImg
                     else env.resolveUrl rssImg link) with
              | some u => [(⟨u, title, "", 0, 0, "rss"⟩ : Img)]
              | none => []
            else []
          else images0
        let images2 :=
          if images1.isEmpty ∧ jsOr item.urlToImage "" ≠ "" then
            [(⟨jsOr item.urlToImage "", title, "", 0, 0, "api"⟩ : Img)]
          else images1
        let images3 :=
          if !fast && images2.isEmpty then
            match ogData.image with
            | some ogImage =>
              if ogImage ≠ "" then
                let ogLower := lowerStr ogImage
                let looksLikePlaceholder :=
                  strIncludes ogLower "logo" || strIncludes ogLower "icon" ||
                  strIncludes ogLower "placeholder" ||
                  strIncludes ogLower "default" ||
                  (strIncludes ogLower "google" && strIncludes ogLower "preferred")
                if looksLikePlaceholder then images2
                else images2 ++ [⟨ogImage, title, "Open Graph image", 0, 0, "opengraph"⟩]
              else images2
            | none => images2
          else images2
        let category := determineCategory title summary src.categories
        let tags := extractTags title summary fullContent
        (some {
          title := title
          summary := summary.take 300
          content := if fast then summary.take 1000 else cleanContent env fullContent
          images := images3
          category := category.getD "general"
          tags := tags
          author := jsOr item.author (jsOr (env.matchAuthor fullContent) src.name)
          lang := jsOr src.lang "en"
          sourceUrl := link
          publishedAt := publishedAt
          hash := hash
          openGraph := ogData }, pageEvents ++ ogEvents)

/-! ## Persisting scraped articles (`scrapeAllSources` insert loop) -/

/-- `Math.ceil(wc / 200) || 1`. -/
def readingTimeOf (wc : Nat) : Nat :=
  let r := (wc + 199) / 200
  if r = 0 then 1 else r

/-- The document `Article.create` receives in the insert loop of
`scrapeAllSources`. -/
def mkArticleDoc (src : SourceDoc) (sid : String) (a : ScrapedArticle)
    (slug : String) (now : Nat) : ArticleDoc :=
  let wc := wordCount a.content
  { title := a.title
    slug := slug
    summary := a.summary.take 300
    content := a.content
    images := a.images
    categories := if a.category = "" then [] else [a.category]
    categoryDetected := if a.category = "" then none else some a.category
    tags := a.tags
    author := if a.author = "" then src.name else a.author
    language := jsOr src.lang "en"
    sourceName := src.name
    sourceId := sid
    canonicalUrl := a.sourceUrl
    thumbnail := a.images.head?.map Img.url
    wordCount := wc
    readingTime := readingTimeOf wc
    publishedAt := a.publishedAt
    scrapedAt := now
    hash := a.hash }

/-- Modelled from the spec: the `Article` Mongoose model itself is not under
`src/` (only `src/src/models/Category.ts` is present; `Article` appears
only through its importers), and spec §3 declares "content hash is unique;
canonical URL is unique; slug is unique".  `Article.create` therefore
fails with a duplicate-key error — which the insert loop catches and turns
into a skipped item — exactly when one of those three uniques would be
violated, and otherwise appends the document. -/
def articleCreate (st : Store) (doc : ArticleDoc) : Option Store :=
  if hashExists st doc.hash || urlExists st doc.canonicalUrl ||
      slugExists st doc.slug then none
  else some (st ++ [doc])

/-- One iteration of the insert loop of `scrapeAllSources`: the
required-field guards, the canonical-URL duplicate probe, slug resolution,
and `Article.create` with its per-item `catch`. -/
def insertScraped (env : ScrapeEnv) (src : SourceDoc) (now : Nat)
    (acc : Store × Nat) (a : ScrapedArticle) : Store × Nat :=
  let st := acc.1
  let cnt := acc.2
  if a.sourceUrl = "" then (st, cnt)
  else
    match src.mid with
    | none => (st, cnt)
    | some sid =>
      if urlExists st a.sourceUrl then (st, cnt)
      else
        let baseSlug := env.slugifyFn (if a.title = "" then "untitled" else a.title)
        let slug := resolveSlug st baseSlug now
        match articleCreate st (mkArticleDoc src sid a slug now) with
        | none => (st, cnt)
        | some st' => (st', cnt + 1)

/-- The whole insert loop for one source's scraped articles; returns the
grown store and the number of inserted documents. -/
def insertArticles (env : ScrapeEnv) (st : Store) (src : SourceDoc)
    (arts : List ScrapedArticle) (now : Nat) : Store × Nat :=
  arts.foldl (insertScraped env src now) (st, 0)

/-! ## Per-source scraping (`ScrapingService.scrapeSource`) -/

/-- The per-item loop of `scrapeSource`: each item races
`scrapeArticle` against the article timeout (`env.slow` is the race
outcome; a timed-out or failed item is logged and skipped), and non-null
results are collected in order. -/
def processItems (env : ScrapeEnv) (st : Store) (src : SourceDoc)
    (fast : Bool) (now : Nat) (items : List FeedItem) : List ScrapedArticle :=
  items.filterMap (fun it =>
    if env.slow it then none
    else (scrapeArticle env st it src fast now).1)

/-- The items `scrapeSource` sees for one source: per RSS URL (in declared
order) the items of the fetched feed — a feed failing both the primary and
fallback parse contributes nothing but does not abort the source — then,
for an API source with an API URL, the items of the API response.  Feed
acquisition never consults the article store, so this list depends only on
the environment and the source. -/
def sourceItems (env : ScrapeEnv) (src : SourceDoc) : List FeedItem :=
  (src.rssUrls.map (fun u =>
    match fetchFeed env u with
    | .ok f => f.items
    | .error _ => [])).flatten
  ++ (if src.stype = some "api" && jsOr src.apiUrl "" ≠ "" then
        match retryRequest 3 (env.apiGet (jsOr src.apiUrl "")) with
        | .ok items => items
        | .error _ => []
      else [])

/-- `scrapeSource(source, options)`: all surviving scraped articles of the
source in item order. -/
def scrapeSource (env : ScrapeEnv) (st : Store) (src : SourceDoc)
    (fast : Bool) (now : Nat) : List ScrapedArticle :=
  processItems env st src fast now (sourceItems env src)

/-! ## The run (`ScrapingService.scrapeAllSources`) -/

/-- `sources.slice(i, i + SOURCE_BATCH_SIZE)` batching with
`SOURCE_BATCH_SIZE = 5`. -/
def chunksOf5 {α : Type} : List α → List (List α)
  | [] => []
  | x :: xs => (x :: xs).take 5 :: chunksOf5 ((x :: xs).drop 5)
  termination_by l => l.length
  decreasing_by
    simp only [List.length_drop, List.length_cons]
    omega

/-- One batch of `scrapeAllSources`: all sources of the batch are scraped
concurrently via `Promise.allSettled` — their duplicate probes all read
the store as of batch entry, because the insert loop only starts after the
batch settles — and then each source's articles are inserted in order. -/
def processBatch (env : ScrapeEnv) (fast : Bool) (now : Nat)
    (acc : Store × Nat) (batch : List SourceDoc) : Store × Nat :=
  let scraped := batch.map (fun s => (s, scrapeSource env acc.1 s fast now))
  scraped.foldl (fun p sa =>
    let r := insertArticles env p.1 sa.1 sa.2 now
    (r.1, p.2 + r.2)) acc

/-- `scrapeAllSources(options)`: active sources, batches of 5, per-batch
scrape-then-insert.  Returns the final article store and the total number
of inserted articles (the run's `stats.total.inserted`). -/
def runScrapeAll (env : ScrapeEnv) (fast : Bool) (st0 : Store)
    (sources : List SourceDoc) (now : Nat) : Store × Nat :=
  let active := sources.filter SourceDoc.active
  (chunksOf5 active).foldl (processBatch env fast now) (st0, 0)

/-! ## Derived per-item notions -/

/-- The hash `scrapeArticle` computes for an item of a source with id
`sid`. -/
def itemHash (env : ScrapeEnv) (it : FeedItem) (sid : String) : String :=
  env.hashFn (serviceHashInput (itemTitle it) (itemSummary it) sid)

/-- An item is *covered* by a store when the pipeline is guaranteed to
skip it against that store: degenerate guards (missing title/link/source
id), the item timeout, an existing article with the item's content hash,
or an existing article with the item's canonical URL. -/
def covered (env : ScrapeEnv) (st : Store) (src : SourceDoc)
    (it : FeedItem) : Prop :=
  itemTitle it = "" ∨ itemLink it = "" ∨ src.mid = none ∨ env.slow it = true ∨
  (∃ sid, src.mid = some sid ∧ hashExists st (itemHash env it sid) = true) ∨
  urlExists st (itemLink it) = true

/-- Article-level coverage: after its insert step, each scraped article is
recorded in the store by canonical URL or by hash (or was degenerate). -/
def artCovered (src : SourceDoc) (st : Store) (a : ScrapedArticle) : Prop :=
  a.sourceUrl = "" ∨ src.mid = none ∨ urlExists st a.sourceUrl = true ∨
    hashExists st a.hash = true

/-! ## Iterated rotation draws -/

/-- `k` successive identity draws against the shared module state (by any
mix of `ScrapingService` instances — the class keeps no per-instance
rotation state, so every draw goes through this one state). -/
def uaIterate : Nat → RotationState → RotationState
  | 0, s => s
  | k + 1, s => uaIterate k (getNextUserAgent s).2

/-! ## Concrete fixtures for witnesses and counterexamples -/

/-- A deterministic environment with inert external services, used to
evaluate the pipeline on concrete inputs.  The digest is instantiated with
the identity function (any fixed function works; the pipeline only
compares digests for equality). -/
def witnessEnv : ScrapeEnv where
  hashFn := fun s => s
  slugifyFn := fun s => s
  fetchPage := fun _ => ""
  ogFromHtml := fun _ => OpenGraph.empty
  ogFetch := fun _ => OpenGraph.empty
  selCands := fun _ _ => []
  allImgs := fun _ => []
  resolveUrl := fun _ _ => none
  mainText := fun _ => ""
  matchAuthor := fun _ => none
  parseFeedUrl := fun _ => .error ()
  fetchRaw := fun _ => .error ()
  parseFeedStr := fun _ => .error ()
  apiGet := fun _ => .error ()
  slow := fun _ => false

/-- A blank persisted article, to be overridden field-wise. -/
def emptyDoc : ArticleDoc where
  title := ""
  slug := ""
  summary := ""
  content := ""
  images := []
  categories := []
  categoryDetected := none
  tags := []
  author := ""
  language := ""
  sourceName := ""
  sourceId := ""
  canonicalUrl := ""
  thumbnail := none
  wordCount := 0
  readingTime := 0
  publishedAt := 0
  scrapedAt := 0
  hash := ""

/-- A blank feed item, to be overridden field-wise. -/
def emptyItem : FeedItem where
  title := none
  link := none
  url := none
  contentSnippet := none
  description := none
  content := none
  author := none
  pubDate := none
  publishedAtTs := none
  enclosureUrl := none
  mediaUrl := none
  thumb := none
  urlToImage := none

/-- A well-formed feed item. -/
def witItem : FeedItem :=
  { emptyItem with
      title := some "T"
      link := some "https://a.example/1"
      contentSnippet := some "S" }

/-- The same (title, summary) as `witItem` under a different link. -/
def witItemOtherLink : FeedItem :=
  { emptyItem with
      title := some "T"
      link := some "https://b.example/2"
      contentSnippet := some "S" }

/-- A feed source with id `"sid1"`. -/
def witSrc : SourceDoc where
  mid := some "sid1"
  name := "Source One"
  url := "https://a.example"
  lang := some "en"
  stype := none
  apiUrl := none
  rssUrls := ["https://a.example/feed"]
  categories := []
  active := true

/-- A store already holding `witItem`'s content hash (under the identity
digest of `witnessEnv`). -/
def witStoreHash : Store := [{ emptyDoc with hash := "TSsid1" }]

/-- A parsed feed with no items. -/
def feedEmpty : Feed := ⟨[]⟩

/-- A parsed feed with two items. -/
def feedTwo : Feed := ⟨[witItem, witItemOtherLink]⟩

/-- Environment whose primary feed parse succeeds with zero items while
the raw fallback would parse to two items. -/
def envEmptyPrimary : ScrapeEnv :=
  { witnessEnv with
    parseFeedUrl := fun _ => .ok feedEmpty
    fetchRaw := fun _ => .ok "<rss>xml</rss>"
    parseFeedStr := fun _ => .ok feedTwo }

/-- Environment whose primary feed parse throws while the raw body parses
to two items. -/
def envThrowPrimary : ScrapeEnv :=
  { witnessEnv with
    parseFeedUrl := fun _ => .error ()
    fetchRaw := fun _ => .ok "<rss>xml</rss>"
    parseFeedStr := fun _ => .ok feedTwo }

/-- Same link as `witItem`, different title/summary. -/
def witItemOtherText : FeedItem :=
  { emptyItem with
      title := some "Q"
      link := some "https://a.example/1"
      contentSnippet := some "Other" }

/-- `witSrc` without a Mongo id. -/
def witSrcNoId : SourceDoc := { witSrc with mid := none }

/-- Environment whose page-wide image scan yields only a logo image. -/
def envLogoImgs : ScrapeEnv :=
  { witnessEnv with
    allImgs := fun _ =>
      [{ src := some "https://x.example/logo.png", dataSrc := none,
         alt := some "site logo", width := 500, height := 500 }] }

/-- Nine persisted Telugu articles tagged `technology`. -/
def nineTeTech : Store :=
  List.replicate 9
    ({ emptyDoc with
        language := "te"
        categories := ["technology"]
        categoryDetected := some "technology" })

/-- Ten persisted Telugu articles tagged `technology`. -/
def tenTeTech : Store :=
  List.replicate 10
    ({ emptyDoc with
        language := "te"
        categories := ["technology"]
        categoryDetected := some "technology" })

/-! ## Store-growth lemmas

The article store only ever grows (every write is a single-document
append); existence probes are therefore monotone along a run. -/

theorem hashExists_mono {st st' : Store} (hp : st <+: st') {x : String}
    (h : hashExists st x = true) : hashExists st' x = true := by
  simp only [hashExists, List.any_eq_true] at h ⊢
  obtain ⟨a, ha, he⟩ := h
  exact ⟨a, hp.subset ha, he⟩

theorem urlExists_mono {st st' : Store} (hp : st <+: st') {x : String}
    (h : urlExists st x = true) : urlExists st' x = true := by
  simp only [urlExists, List.any_eq_true] at h ⊢
  obtain ⟨a, ha, he⟩ := h
  exact ⟨a, hp.subset ha, he⟩

theorem articleCreate_some {st : Store} {doc : ArticleDoc} {st' : Store}
    (h : articleCreate st doc = some st') : st' = st ++ [doc] := by
  unfold articleCreate at h
  split at h
  · cases h
  · exact (Option.some.inj h).symm

/-- Exhaustive description of one insert step: either the step skips the
article and leaves the store alone — and then the article was degenerate,
already present by canonical URL, or rejected by a duplicate-key error on
hash (a slug conflict is impossible, the resolved slug being fresh) — or
it appends exactly the created document. -/
theorem insertScraped_cases (env : ScrapeEnv) (src : SourceDoc) (now : Nat)
    (st : Store) (cnt : Nat) (a : ScrapedArticle) :
    (insertScraped env src now (st, cnt) a = (st, cnt) ∧
      (a.sourceUrl = "" ∨ src.mid = none ∨ urlExists st a.sourceUrl = true ∨
        hashExists st a.hash = true)) ∨
    ∃ sid, src.mid = some sid ∧
      insertScraped env src now (st, cnt) a =
        (st ++ [mkArticleDoc src sid a
          (resolveSlug st
            (env.slugifyFn (if a.title = "" then "untitled" else a.title)) now)
          now], cnt + 1) := by
  unfold insertScraped
  dsimp only
  by_cases h1 : a.sourceUrl = ""
  · rw [if_pos h1]; exact Or.inl ⟨rfl, Or.inl h1⟩
  · rw [if_neg h1]
    cases hmid : src.mid with
    | none =>
      refine Or.inl ⟨rfl, Or.inr (Or.inl ?_)⟩
      simp [hmid]
    | some sid =>
      dsimp only
      by_cases h2 : urlExists st a.sourceUrl = true
      · rw [if_pos h2]; exact Or.inl ⟨rfl, Or.inr (Or.inr (Or.inl h2))⟩
      · rw [if_neg h2]
        by_cases hdup : (hashExists st (mkArticleDoc src sid a
              (resolveSlug st (env.slugifyFn
                (if a.title = "" then "untitled" else a.title)) now) now).hash ||
            urlExists st (mkArticleDoc src sid a
              (resolveSlug st (env.slugifyFn
                (if a.title = "" then "untitled" else a.title)) now) now).canonicalUrl ||
            slugExists st (mkArticleDoc src sid a
              (resolveSlug st (env.slugifyFn
                (if a.title = "" then "untitled" else a.title)) now) now).slug) = true
        · have hcn : articleCreate st (mkArticleDoc src sid a
              (resolveSlug st (env.slugifyFn
                (if a.title = "" then "untitled" else a.title)) now) now) = none := by
            unfold articleCreate
            rw [if_pos hdup]
          rw [hcn]
          refine Or.inl ⟨rfl, Or.inr (Or.inr ?_)⟩
          simp only [Bool.or_eq_true] at hdup
          rcases hdup with (hh | hu) | hs
          · exact Or.inr hh
          · exact absurd hu h2
          · exfalso
            have hs' : slugExists st (resolveSlug st
                (env.slugifyFn (if a.title = "" then "untitled" else a.title))
                now) = true := hs
            rw [resolveSlug_fresh] at hs'
            cases hs'
        · have hcs : articleCreate st (mkArticleDoc src sid a
              (resolveSlug st (env.slugifyFn
                (if a.title = "" then "untitled" else a.title)) now) now) =
              some (st ++ [mkArticleDoc src sid a
                (resolveSlug st (env.slugifyFn
                  (if a.title = "" then "untitled" else a.title)) now) now]) := by
            unfold articleCreate
            rw [if_neg hdup]
          rw [hcs]
          exact Or.inr ⟨sid, rfl, rfl⟩

theorem insertScraped_grows (env : ScrapeEnv) (src : SourceDoc) (now : Nat)
    (acc : Store × Nat) (a : ScrapedArticle) :
    acc.1 <+: (insertScraped env src now acc a).1 := by
  obtain ⟨st, cnt⟩ := acc
  rcases insertScraped_cases env src now st cnt a with ⟨h, _⟩ | ⟨sid, _, h⟩
  · rw [h]
  · rw [h]
    exact List.prefix_append _ _

theorem foldl_insert_grows (env : ScrapeEnv) (src : SourceDoc) (now : Nat)
    (arts : List ScrapedArticle) :
    ∀ (acc : Store × Nat),
      acc.1 <+: (arts.foldl (insertScraped env src now) acc).1 := by
  induction arts with
  | nil => intro acc; exact List.prefix_refl _
  | cons a arts ih =>
    intro acc
    rw [List.foldl_cons]
    exact (insertScraped_grows env src now acc a).trans (ih _)

theorem insertArticles_grows (env : ScrapeEnv) (st : Store) (src : SourceDoc)
    (arts : List ScrapedArticle) (now : Nat) :
    st <+: (insertArticles env st src arts now).1 :=
  foldl_insert_grows env src now arts (st, 0)

theorem foldl_batch_grows (env : ScrapeEnv) (now : Nat)
    (l : List (SourceDoc × List ScrapedArticle)) :
    ∀ (acc : Store × Nat),
      acc.1 <+: (l.foldl (fun p sa =>
        ((insertArticles env p.1 sa.1 sa.2 now).1,
         p.2 + (insertArticles env p.1 sa.1 sa.2 now).2)) acc).1 := by
  induction l with
  | nil => intro acc; exact List.prefix_refl _
  | cons sa l ih =>
    intro acc
    rw [List.foldl_cons]
    exact (insertArticles_grows env acc.1 sa.1 sa.2 now).trans
      (ih ((insertArticles env acc.1 sa.1 sa.2 now).1,
        acc.2 + (insertArticles env acc.1 sa.1 sa.2 now).2))

theorem processBatch_grows (env : ScrapeEnv) (fast : Bool) (now : Nat)
    (acc : Store × Nat) (batch : List SourceDoc) :
    acc.1 <+: (processBatch env fast now acc batch).1 := by
  unfold processBatch
  exact foldl_batch_grows env now _ acc

theorem foldl_run_grows (env : ScrapeEnv) (fast : Bool) (now : Nat)
    (bs : List (List SourceDoc)) :
    ∀ (acc : Store × Nat),
      acc.1 <+: (bs.foldl (processBatch env fast now) acc).1 := by
  induction bs with
  | nil => intro acc; exact List.prefix_refl _
  | cons b bs ih =>
    intro acc
    rw [List.foldl_cons]
    exact (processBatch_grows env fast now acc b).trans (ih _)

/-! ## Case analysis of `scrapeArticle` -/

theorem scrapeArticle_none_of_guard (env : ScrapeEnv) (st : Store)
    (item : FeedItem) (src : SourceDoc) (fast : Bool) (now : Nat)
    (h : itemTitle item = "" ∨ itemLink item = "") :
    scrapeArticle env st item src fast now = (none, []) := by
  simp only [scrapeArticle]
  rw [if_pos h]

theorem scrapeArticle_none_of_noId (env : ScrapeEnv) (st : Store)
    (item : FeedItem) (src : SourceDoc) (fast : Bool) (now : Nat)
    (h : src.mid = none) :
    scrapeArticle env st item src fast now = (none, []) := by
  simp only [scrapeArticle, h]
  split <;> rfl

theorem scrapeArticle_none_of_hashExists (env : ScrapeEnv) (st : Store)
    (item : FeedItem) (src : SourceDoc) (fast : Bool) (now : Nat)
    (sid : String) (hmid : src.mid = some sid)
    (hh : hashExists st (itemHash env item sid) = true) :
    scrapeArticle env st item src fast now = (none, []) := by
  simp only [itemHash] at hh
  simp only [scrapeArticle, hmid]
  by_cases hg : itemTitle item = "" ∨ itemLink item = ""
  · rw [if_pos hg]
  · rw [if_neg hg, if_pos hh]

theorem scrapeArticle_some_spec {env : ScrapeEnv} {st : Store}
    {item : FeedItem} {src : SourceDoc} {fast : Bool} {now : Nat}
    {a : ScrapedArticle}
    (h : (scrapeArticle env st item src fast now).1 = some a) :
    itemTitle item ≠ "" ∧ itemLink item ≠ "" ∧
    ∃ sid, src.mid = some sid ∧
      a.hash = itemHash env item sid ∧
      a.sourceUrl = itemLink item ∧
      hashExists st a.hash = false := by
  by_cases hg : itemTitle item = "" ∨ itemLink item = ""
  · rw [scrapeArticle_none_of_guard env st item src fast now hg] at h
    cases h
  · cases hmid : src.mid with
    | none =>
      rw [scrapeArticle_none_of_noId env st item src fast now hmid] at h
      cases h
    | some sid =>
      by_cases hh : hashExists st (itemHash env item sid) = true
      · rw [scrapeArticle_none_of_hashExists env st item src fast now sid hmid hh] at h
        cases h
      · simp only [itemHash] at hh
        simp only [scrapeArticle, hmid] at h
        rw [if_neg hg, if_neg hh] at h
        have ha := (Option.some.inj h).symm
        subst ha
        refine ⟨fun h1 => hg (Or.inl h1), fun h2 => hg (Or.inr h2),
          sid, rfl, rfl, rfl, ?_⟩
        simpa [itemHash] using hh

theorem scrapeArticle_none_cases {env : ScrapeEnv} {st : Store}
    {item : FeedItem} {src : SourceDoc} {fast : Bool} {now : Nat}
    (h : (scrapeArticle env st item src fast now).1 = none) :
    itemTitle item = "" ∨ itemLink item = "" ∨ src.mid = none ∨
      ∃ sid, src.mid = some sid ∧
        hashExists st (itemHash env item sid) = true := by
  by_cases hg : itemTitle item = "" ∨ itemLink item = ""
  · rcases hg with hg | hg
    · exact Or.inl hg
    · exact Or.inr (Or.inl hg)
  · cases hmid : src.mid with
    | none => exact Or.inr (Or.inr (Or.inl rfl))
    | some sid =>
      by_cases hh : hashExists st (itemHash env item sid) = true
      · exact Or.inr (Or.inr (Or.inr ⟨sid, rfl, hh⟩))
      · exfalso
        simp only [itemHash] at hh
        simp only [scrapeArticle, hmid] at h
        rw [if_neg hg, if_neg hh] at h
        cases h

/-! ## Coverage: why a second run inserts nothing

An item is *covered* by a store when the pipeline is guaranteed to skip it
against that store: degenerate guards (missing title/link/source id), the
item timeout, an existing article with the item's content hash, or an
existing article with the item's canonical URL. -/

theorem covered_mono {env : ScrapeEnv} {st st' : Store} {src : SourceDoc}
    {it : FeedItem} (hp : st <+: st') (h : covered env st src it) :
    covered env st' src it := by
  rcases h with h | h | h | h | ⟨sid, hmid, hh⟩ | h
  · exact Or.inl h
  · exact Or.inr (Or.inl h)
  · exact Or.inr (Or.inr (Or.inl h))
  · exact Or.inr (Or.inr (Or.inr (Or.inl h)))
  · exact Or.inr (Or.inr (Or.inr (Or.inr (Or.inl
      ⟨sid, hmid, hashExists_mono hp hh⟩))))
  · exact Or.inr (Or.inr (Or.inr (Or.inr (Or.inr (urlExists_mono hp h)))))

theorem artCovered_mono {src : SourceDoc} {st st' : Store}
    {a : ScrapedArticle} (hp : st <+: st') (h : artCovered src st a) :
    artCovered src st' a := by
  rcases h with h | h | h | h
  · exact Or.inl h
  · exact Or.inr (Or.inl h)
  · exact Or.inr (Or.inr (Or.inl (urlExists_mono hp h)))
  · exact Or.inr (Or.inr (Or.inr (hashExists_mono hp h)))

theorem insertScraped_covers (env : ScrapeEnv) (src : SourceDoc) (now : Nat)
    (st : Store) (cnt : Nat) (a : ScrapedArticle) :
    artCovered src (insertScraped env src now (st, cnt) a).1 a := by
  rcases insertScraped_cases env src now st cnt a with ⟨h, hr⟩ | ⟨sid, _, h⟩
  · rw [h]
    exact hr
  · rw [h]
    refine Or.inr (Or.inr (Or.inl ?_))
    simp [urlExists, mkArticleDoc]

theorem foldl_insert_covers (env : ScrapeEnv) (src : SourceDoc) (now : Nat)
    (arts : List ScrapedArticle) :
    ∀ (acc : Store × Nat) (a : ScrapedArticle), a ∈ arts →
      artCovered src (arts.foldl (insertScraped env src now) acc).1 a := by
  induction arts with
  | nil => intro _ _ h; cases h
  | cons b arts ih =>
    intro acc a ha
    rw [List.foldl_cons]
    rcases List.mem_cons.mp ha with rfl | ha
    · have h0 : artCovered src (insertScraped env src now acc a).1 a := by
        obtain ⟨st, cnt⟩ := acc
        exact insertScraped_covers env src now st cnt a
      exact artCovered_mono (foldl_insert_grows env src now arts _) h0
    · exact ih _ a ha

theorem insertArticles_covers (env : ScrapeEnv) (st : Store)
    (src : SourceDoc) (arts : List ScrapedArticle) (now : Nat)
    {a : ScrapedArticle} (ha : a ∈ arts) :
    artCovered src (insertArticles env st src arts now).1 a :=
  foldl_insert_covers env src now arts (st, 0) a ha

theorem foldl_batch_covers (env : ScrapeEnv) (now : Nat)
    (l : List (SourceDoc × List ScrapedArticle)) :
    ∀ (acc : Store × Nat) (s : SourceDoc) (arts : List ScrapedArticle),
      (s, arts) ∈ l → ∀ a ∈ arts,
      artCovered s (l.foldl (fun p sa =>
        ((insertArticles env p.1 sa.1 sa.2 now).1,
         p.2 + (insertArticles env p.1 sa.1 sa.2 now).2)) acc).1 a := by
  induction l with
  | nil => intro _ _ _ h; cases h
  | cons sa l ih =>
    intro acc s arts hm a ha
    rw [List.foldl_cons]
    rcases List.mem_cons.mp hm with heq | hm
    · cases heq
      exact artCovered_mono (foldl_batch_grows env now l _)
        (insertArticles_covers env acc.1 s arts now ha)
    · exact ih _ s arts hm a ha

/-- Membership in `processItems`: every surviving article stems from a
non-timed-out item that `scrapeArticle` accepted. -/
theorem processItems_mem {env : ScrapeEnv} {st : Store} {src : SourceDoc}
    {fast : Bool} {now : Nat} {items : List FeedItem} {a : ScrapedArticle}
    (h : a ∈ processItems env st src fast now items) :
    ∃ it ∈ items, env.slow it = false ∧
      (scrapeArticle env st it src fast now).1 = some a := by
  unfold processItems at h
  obtain ⟨it, hit, hsome⟩ := List.mem_filterMap.mp h
  by_cases hslow : env.slow it = true
  · rw [if_pos hslow] at hsome; cases hsome
  · rw [if_neg hslow] at hsome
    exact ⟨it, hit, by simpa using hslow, hsome⟩

theorem processBatch_covers (env : ScrapeEnv) (fast : Bool) (now : Nat)
    (acc : Store × Nat) (batch : List SourceDoc) {s : SourceDoc}
    (hs : s ∈ batch) {it : FeedItem} (hit : it ∈ sourceItems env s) :
    covered env (processBatch env fast now acc batch).1 s it := by
  by_cases hg1 : itemTitle it = ""
  · exact Or.inl hg1
  by_cases hg2 : itemLink it = ""
  · exact Or.inr (Or.inl hg2)
  by_cases hslow : env.slow it = true
  · exact Or.inr (Or.inr (Or.inr (Or.inl hslow)))
  by_cases hmid : s.mid = none
  · exact Or.inr (Or.inr (Or.inl hmid))
  have hpre := processBatch_grows env fast now acc batch
  cases hres : (scrapeArticle env acc.1 it s fast now).1 with
  | none =>
    rcases scrapeArticle_none_cases hres with h | h | h | ⟨sid', hmid', hh⟩
    · exact absurd h hg1
    · exact absurd h hg2
    · exact absurd h hmid
    · exact Or.inr (Or.inr (Or.inr (Or.inr (Or.inl
        ⟨sid', hmid', hashExists_mono hpre hh⟩))))
  | some a =>
    have hmem : a ∈ scrapeSource env acc.1 s fast now := by
      unfold scrapeSource processItems
      refine List.mem_filterMap.mpr ⟨it, hit, ?_⟩
      rw [if_neg (by simp [hslow])]
      exact hres
    have hpair : (s, scrapeSource env acc.1 s fast now) ∈
        batch.map (fun s => (s, scrapeSource env acc.1 s fast now)) :=
      List.mem_map.mpr ⟨s, hs, rfl⟩
    have hart : artCovered s (processBatch env fast now acc batch).1 a := by
      unfold processBatch
      exact foldl_batch_covers env now _ acc s _ hpair a hmem
    obtain ⟨hT, hL, sid'', hmid'', hhash, hurl, _⟩ :=
      scrapeArticle_some_spec hres
    rcases hart with h | h | h | h
    · rw [hurl] at h; exact absurd h hg2
    · exact absurd h hmid
    · rw [hurl] at h
      exact Or.inr (Or.inr (Or.inr (Or.inr (Or.inr h))))
    · rw [hhash] at h
      exact Or.inr (Or.inr (Or.inr (Or.inr (Or.inl ⟨sid'', hmid'', h⟩))))

theorem foldl_run_covers (env : ScrapeEnv) (fast : Bool) (now : Nat)
    (bs : List (List SourceDoc)) :
    ∀ (acc : Store × Nat) (batch : List SourceDoc), batch ∈ bs →
      ∀ s ∈ batch, ∀ it ∈ sourceItems env s,
      covered env (bs.foldl (processBatch env fast now) acc).1 s it := by
  induction bs with
  | nil => intro _ _ h; cases h
  | cons b bs ih =>
    intro acc batch hb s hs it hit
    rw [List.foldl_cons]
    rcases List.mem_cons.mp hb with rfl | hb
    · exact covered_mono (foldl_run_grows env fast now bs _)
        (processBatch_covers env fast now acc batch hs hit)
    · exact ih _ batch hb s hs it hit

theorem chunksOf5_flatten {α : Type} : ∀ (l : List α),
    (chunksOf5 l).flatten = l
  | [] => by rw [chunksOf5]; rfl
  | x :: xs => by
    rw [chunksOf5, List.flatten_cons, chunksOf5_flatten ((x :: xs).drop 5),
      List.take_append_drop]
  termination_by l => l.length
  decreasing_by
    simp only [List.length_drop, List.length_cons]
    omega

theorem mem_chunksOf5 {α : Type} {l : List α} {x : α} (h : x ∈ l) :
    ∃ b ∈ chunksOf5 l, x ∈ b := by
  rw [← chunksOf5_flatten l] at h
  exact List.mem_flatten.mp h

theorem runScrapeAll_covers (env : ScrapeEnv) (fast : Bool) (st0 : Store)
    (sources : List SourceDoc) (now : Nat) {s : SourceDoc}
    (hs : s ∈ sources.filter SourceDoc.active) {it : FeedItem}
    (hit : it ∈ sourceItems env s) :
    covered env (runScrapeAll env fast st0 sources now).1 s it := by
  obtain ⟨b, hb, hsb⟩ := mem_chunksOf5 hs
  unfold runScrapeAll
  exact foldl_run_covers env fast now _ (st0, 0) b hb s hsb it hit

/-! ## The no-op direction: a fully covered feed inserts nothing -/

theorem insertScraped_skip (env : ScrapeEnv) (src : SourceDoc) (now : Nat)
    (st : Store) (cnt : Nat) (a : ScrapedArticle)
    (h : urlExists st a.sourceUrl = true) :
    insertScraped env src now (st, cnt) a = (st, cnt) := by
  unfold insertScraped
  dsimp only
  by_cases h1 : a.sourceUrl = ""
  · rw [if_pos h1]
  · rw [if_neg h1]
    cases src.mid with
    | none => rfl
    | some sid =>
      dsimp only
      rw [if_pos h]

theorem foldl_insert_noop (env : ScrapeEnv) (src : SourceDoc) (now : Nat)
    (arts : List ScrapedArticle) :
    ∀ (st : Store) (cnt : Nat),
      (∀ a ∈ arts, urlExists st a.sourceUrl = true) →
      arts.foldl (insertScraped env src now) (st, cnt) = (st, cnt) := by
  induction arts with
  | nil => intro _ _ _; rfl
  | cons a arts ih =>
    intro st cnt hall
    rw [List.foldl_cons,
      insertScraped_skip env src now st cnt a (hall a (List.mem_cons_self a arts))]
    exact ih st cnt (fun b hb => hall b (List.mem_cons_of_mem a hb))

theorem insertArticles_noop (env : ScrapeEnv) (st : Store) (src : SourceDoc)
    (arts : List ScrapedArticle) (now : Nat)
    (hall : ∀ a ∈ arts, urlExists st a.sourceUrl = true) :
    insertArticles env st src arts now = (st, 0) :=
  foldl_insert_noop env src now arts st 0 hall

/-- Every article a covered source yields against store `st` is already
recorded in `st` by canonical URL. -/
theorem scrapeSource_covered_urls (env : ScrapeEnv) (st : Store)
    (src : SourceDoc) (fast : Bool) (now : Nat)
    (hcov : ∀ it ∈ sourceItems env src, covered env st src it) :
    ∀ a ∈ scrapeSource env st src fast now, urlExists st a.sourceUrl = true := by
  intro a ha
  obtain ⟨it, hit, hslow, hres⟩ := processItems_mem ha
  obtain ⟨hT, hL, sid, hmid, hhash, hurl, hfresh⟩ := scrapeArticle_some_spec hres
  rcases hcov it hit with h | h | h | h | ⟨sid', hmid', hh⟩ | h
  · exact absurd h hT
  · exact absurd h hL
  · rw [h] at hmid; cases hmid
  · rw [h] at hslow; cases hslow
  · exfalso
    rw [hmid'] at hmid
    cases Option.some.inj hmid
    rw [← hhash] at hh
    rw [hh] at hfresh
    cases hfresh
  · rw [hurl]
    exact h

theorem foldl_batch_noop (env : ScrapeEnv) (now : Nat)
    (l : List (SourceDoc × List ScrapedArticle)) :
    ∀ (acc : Store × Nat),
      (∀ sa ∈ l, insertArticles env acc.1 sa.1 sa.2 now = (acc.1, 0)) →
      l.foldl (fun p sa =>
        ((insertArticles env p.1 sa.1 sa.2 now).1,
         p.2 + (insertArticles env p.1 sa.1 sa.2 now).2)) acc = acc := by
  induction l with
  | nil => intro _ _; rfl
  | cons sa l ih =>
    intro acc hall
    rw [List.foldl_cons]
    have h0 := hall sa (List.mem_cons_self sa l)
    have hstep : ((insertArticles env acc.1 sa.1 sa.2 now).1,
        acc.2 + (insertArticles env acc.1 sa.1 sa.2 now).2) = acc := by
      rw [h0]
      simp
    rw [hstep]
    exact ih acc (fun sb hb => hall sb (List.mem_cons_of_mem sa hb))

theorem processBatch_noop (env : ScrapeEnv) (fast : Bool) (now : Nat)
    (acc : Store × Nat) (batch : List SourceDoc)
    (hcov : ∀ s ∈ batch, ∀ it ∈ sourceItems env s, covered env acc.1 s it) :
    processBatch env fast now acc batch = acc := by
  unfold processBatch
  apply foldl_batch_noop
  intro sa hsa
  obtain ⟨s, hs, rfl⟩ := List.mem_map.mp hsa
  exact insertArticles_noop env acc.1 s _ now
    (scrapeSource_covered_urls env acc.1 s fast now (hcov s hs))

theorem foldl_run_noop (env : ScrapeEnv) (fast : Bool) (now : Nat)
    (bs : List (List SourceDoc)) :
    ∀ (acc : Store × Nat),
      (∀ batch ∈ bs, ∀ s ∈ batch, ∀ it ∈ sourceItems env s,
        covered env acc.1 s it) →
      bs.foldl (processBatch env fast now) acc = acc := by
  induction bs with
  | nil => intro _ _; rfl
  | cons b bs ih =>
    intro acc hall
    rw [List.foldl_cons,
      processBatch_noop env fast now acc b (hall b (List.mem_cons_self b bs))]
    exact ih acc (fun b' hb' => hall b' (List.mem_cons_of_mem b hb'))

theorem mem_of_mem_chunksOf5 {α : Type} {l : List α} {b : List α} {x : α}
    (hb : b ∈ chunksOf5 l) (hx : x ∈ b) : x ∈ l := by
  rw [← chunksOf5_flatten l]
  exact List.mem_flatten.mpr ⟨b, hb, hx⟩

/-! ## Claim theorems -/

/-- C1: running `scrapeAllSources` a second time against an unchanged feed
environment inserts nothing: the second run returns the first run's store
unchanged and an inserted-count of zero.  (Each item the first run
persisted is skipped by its content hash; each item the first run skipped
at the canonical-URL probe is skipped there again; degenerate and
timed-out items are skipped for the same reasons as before.) -/
theorem C1_scrapeAllSources_idempotent (env : ScrapeEnv) (fast : Bool)
    (st0 : Store) (sources : List SourceDoc) (now1 now2 : Nat) :
    runScrapeAll env fast (runScrapeAll env fast st0 sources now1).1 sources now2
      = ((runScrapeAll env fast st0 sources now1).1, 0) := by
  have hcov : ∀ s ∈ sources.filter SourceDoc.active, ∀ it ∈ sourceItems env s,
      covered env (runScrapeAll env fast st0 sources now1).1 s it :=
    fun s hs it hit => runScrapeAll_covers env fast st0 sources now1 hs hit
  set st1 := (runScrapeAll env fast st0 sources now1).1 with hst1
  unfold runScrapeAll
  apply foldl_run_noop
  intro batch hb s hs it hit
  exact hcov s (mem_of_mem_chunksOf5 hb hs) it hit

/-! ## Classifier scoring lemmas -/

theorem score_foldl_const (text : String) (l : List String)
    (h : ∀ k ∈ l, kwMatch text k = false) :
    ∀ acc : Nat, l.foldl
      (fun acc k => if kwMatch text k then acc + max 1 (k.length / 4) else acc)
      acc = acc := by
  induction l with
  | nil => intro _; rfl
  | cons k l ih =>
    intro acc
    rw [List.foldl_cons, if_neg]
    · exact ih (fun k' hk' => h k' (List.mem_cons_of_mem k hk')) acc
    · rw [h k (List.mem_cons_self k l)]
      simp

theorem categoryScore_zero (nl text : String) (keys : List String)
    (h : ∀ k ∈ keys, scriptFilter nl k = true → kwMatch text k = false) :
    categoryScore nl text keys = 0 := by
  unfold categoryScore
  apply score_foldl_const
  intro k hk
  obtain ⟨hmem, hfil⟩ := List.mem_filter.mp hk
  exact h k hmem hfil

theorem score_foldl_le (text : String) (l : List String) :
    ∀ acc : Nat, acc ≤ l.foldl
      (fun acc k => if kwMatch text k then acc + max 1 (k.length / 4) else acc)
      acc := by
  induction l with
  | nil => intro _; exact Nat.le_refl _
  | cons k l ih =>
    intro acc
    rw [List.foldl_cons]
    refine Nat.le_trans ?_ (ih _)
    split
    · omega
    · exact Nat.le_refl _

theorem categoryScore_pos (nl text : String) (keys : List String)
    {k : String} (hk : k ∈ keys) (hfil : scriptFilter nl k = true)
    (hm : kwMatch text k = true) : 0 < categoryScore nl text keys := by
  unfold categoryScore
  have hk' : k ∈ keys.filter (scriptFilter nl) := List.mem_filter.mpr ⟨hk, hfil⟩
  obtain ⟨s, t, hst⟩ := List.append_of_mem hk'
  rw [hst, List.foldl_append, List.foldl_cons, if_pos hm]
  refine Nat.lt_of_lt_of_le ?_ (score_foldl_le text t _)
  have := Nat.le_max_left 1 (k.length / 4)
  omega

theorem catfold_keep (nl text : String) (l : List (String × List String))
    (h : ∀ p ∈ l, categoryScore nl text p.2 = 0) :
    ∀ b : String × Nat, l.foldl (fun best p =>
      if best.2 < categoryScore nl text p.2
      then (p.1, categoryScore nl text p.2) else best) b = b := by
  induction l with
  | nil => intro _; rfl
  | cons p l ih =>
    intro b
    rw [List.foldl_cons, if_neg]
    · exact ih (fun q hq => h q (List.mem_cons_of_mem p hq)) b
    · rw [h p (List.mem_cons_self p l)]
      omega

/-- Zero active-keyword matches in every category yield the default
category, for any declared language. -/
theorem computeCategory_zero_matches (isPS : Char → Bool)
    (title summary content : String) (language : Option String)
    (h : ∀ p ∈ classifierDict, ∀ k ∈ p.2,
      scriptFilter (normalizedLangOf language) k = true →
      kwMatch (normalizeText isPS (title ++ " " ++ summary ++ " " ++ content)) k
        = false) :
    computeCategoryFromText isPS title summary content language = "general" := by
  unfold computeCategoryFromText
  dsimp only
  rw [catfold_keep _ _ _
    (fun p hp => categoryScore_zero _ _ _ (h p hp))]
  rfl

/-! ## Slug bookkeeping for the insert loop -/

theorem slugExists_append_left {st : Store} {l : Store} {x : String}
    (h : slugExists st x = true) : slugExists (st ++ l) x = true := by
  simp only [slugExists, List.any_eq_true] at h ⊢
  obtain ⟨a, ha, he⟩ := h
  exact ⟨a, List.mem_append_left _ ha, he⟩

theorem slugExists_of_mem {st : Store} {d : ArticleDoc}
    (h : d ∈ st) : slugExists st d.slug = true := by
  simp only [slugExists, List.any_eq_true]
  exact ⟨d, h, by simp⟩

/-- The insert loop appends a block of fresh documents: each inserted
document's slug was absent from the store the loop started from, and the
inserted documents carry pairwise distinct slugs. -/
theorem foldl_insert_delta (env : ScrapeEnv) (src : SourceDoc) (now : Nat)
    (arts : List ScrapedArticle) :
    ∀ (st : Store) (cnt : Nat), ∃ Δ : List ArticleDoc,
      arts.foldl (insertScraped env src now) (st, cnt) =
        (st ++ Δ, cnt + Δ.length) ∧
      (∀ d ∈ Δ, slugExists st d.slug = false) ∧
      Δ.Pairwise (fun d1 d2 => d1.slug ≠ d2.slug) := by
  induction arts with
  | nil =>
    intro st cnt
    exact ⟨[], by simp, by simp, List.Pairwise.nil⟩
  | cons a arts ih =>
    intro st cnt
    rw [List.foldl_cons]
    rcases insertScraped_cases env src now st cnt a with ⟨heq, _⟩ | ⟨sid, _, heq⟩
    · rw [heq]
      exact ih st cnt
    · rw [heq]
      obtain ⟨Δ', hfold, hfresh, hpw⟩ := ih (st ++ [mkArticleDoc src sid a
        (resolveSlug st
          (env.slugifyFn (if a.title = "" then "untitled" else a.title)) now)
        now]) (cnt + 1)
      refine ⟨mkArticleDoc src sid a
        (resolveSlug st
          (env.slugifyFn (if a.title = "" then "untitled" else a.title)) now)
        now :: Δ', ?_, ?_, ?_⟩
      · rw [hfold]
        simp only [Prod.mk.injEq, List.append_assoc, List.singleton_append,
          List.length_cons]
        exact ⟨trivial, by omega⟩
      · intro d hd
        rcases List.mem_cons.mp hd with rfl | hd
        · exact resolveSlug_fresh st _ now
        · cases hv : slugExists st d.slug
          · rfl
          · exfalso
            have := slugExists_append_left (l := [mkArticleDoc src sid a
              (resolveSlug st
                (env.slugifyFn (if a.title = "" then "untitled" else a.title))
                now) now]) hv
            rw [hfresh d hd] at this
            cases this
      · refine List.Pairwise.cons ?_ hpw
        intro d hd heqslug
        have hmem : slugExists (st ++ [mkArticleDoc src sid a
            (resolveSlug st
              (env.slugifyFn (if a.title = "" then "untitled" else a.title))
              now) now]) d.slug = true := by
          rw [← heqslug]
          exact slugExists_of_mem (List.mem_append_right _ (List.mem_singleton_self _))
        rw [hfresh d hd] at hmem
        cases hmem

/-- C2 counterexample: the claim says the content hash is, at every call
site, a digest of exactly `title + summary + sourceId`, independent of the
item's link.  At the `generateHash` call site of `scripts/runScraper.ts`
the digest input is `item.link || item.title || JSON.stringify(item)
.slice(0, 200)`: two items with identical title and summary but different
links feed different inputs (the links themselves) to the digest. -/
theorem C2_counterexample :
    itemTitle witItem = itemTitle witItemOtherLink ∧
    itemSummary witItem = itemSummary witItemOtherLink ∧
    runScraperHashInput witItem "{}" = "https://a.example/1" ∧
    runScraperHashInput witItemOtherLink "{}" = "https://b.example/2" ∧
    runScraperHashInput witItem "{}" ≠ runScraperHashInput witItemOtherLink "{}" := by
  refine ⟨rfl, rfl, rfl, rfl, ?_⟩
  decide

/-- C2 (amended): in `ScrapingService.scrapeArticle` the content hash is
the digest of exactly `title + summary + sourceId`: any two accepted
items agreeing on that triple obtain identical hashes — whatever their
links, the store contents, the run mode, or the clock — and the hash
equals the digest of the concatenation.  At the `runScraper.ts` call site
the digest input is instead determined by the link alone whenever a
non-empty link is present. -/
theorem C2_amended_hash_inputs (env : ScrapeEnv)
    (it1 it2 : FeedItem) (s1 s2 : SourceDoc) (sid : String)
    (st1 st2 : Store) (f1 f2 : Bool) (n1 n2 : Nat)
    (a1 a2 : ScrapedArticle)
    (hm1 : s1.mid = some sid) (hm2 : s2.mid = some sid)
    (ht : itemTitle it1 = itemTitle it2)
    (hs : itemSummary it1 = itemSummary it2)
    (r1 : (scrapeArticle env st1 it1 s1 f1 n1).1 = some a1)
    (r2 : (scrapeArticle env st2 it2 s2 f2 n2).1 = some a2) :
    (a1.hash = env.hashFn (itemTitle it1 ++ itemSummary it1 ++ sid) ∧
     a1.hash = a2.hash) ∧
    (∀ (j1 j2 : FeedItem) (js1 js2 : String) (l : String), l ≠ "" →
      j1.link = some l → j2.link = some l →
      runScraperHashInput j1 js1 = runScraperHashInput j2 js2) := by
  obtain ⟨_, _, sid1, hmid1, hh1, _, _⟩ := scrapeArticle_some_spec r1
  obtain ⟨_, _, sid2, hmid2, hh2, _, _⟩ := scrapeArticle_some_spec r2
  rw [hm1] at hmid1
  rw [hm2] at hmid2
  cases Option.some.inj hmid1
  cases Option.some.inj hmid2
  constructor
  · constructor
    · rw [hh1]
      rfl
    · rw [hh1, hh2]
      simp only [itemHash, serviceHashInput]
      rw [ht, hs]
  · intro j1 j2 js1 js2 l hl h1 h2
    unfold runScraperHashInput jsOr
    rw [h1, h2]
    simp [hl]

/-- C2 witness: two accepted items with equal (title, summary, sourceId)
under different links, stores, modes and clocks obtain the same service
hash, equal to the digest of the concatenation; and two items sharing a
link feed the same input to the script's digest whatever their titles,
summaries and serializations. -/
theorem C2_amended_hash_inputs_witness :
    ∃ a1 a2 : ScrapedArticle,
      (scrapeArticle witnessEnv [] witItem witSrc true 0).1 = some a1 ∧
      (scrapeArticle witnessEnv [] witItemOtherLink witSrc false 1).1 = some a2 ∧
      a1.hash = "TSsid1" ∧ a1.hash = a2.hash ∧
      runScraperHashInput witItem "{}" = runScraperHashInput witItemOtherText "[]" := by
  obtain ⟨a1, h1⟩ : ∃ a, (scrapeArticle witnessEnv [] witItem witSrc true 0).1
      = some a := ⟨_, rfl⟩
  obtain ⟨a2, h2⟩ : ∃ a,
      (scrapeArticle witnessEnv [] witItemOtherLink witSrc false 1).1
      = some a := ⟨_, rfl⟩
  obtain ⟨⟨hdig, heq⟩, hlink⟩ := C2_amended_hash_inputs witnessEnv
    witItem witItemOtherLink witSrc witSrc "sid1" [] [] true false 0 1 a1 a2
    rfl rfl rfl rfl h1 h2
  exact ⟨a1, a2, h1, h2, hdig.trans rfl, heq,
    hlink witItem witItemOtherText "{}" "[]" "https://a.example/1"
      (by decide) rfl rfl⟩

/-- C3: when an article with the item's content hash already exists, the
per-item pipeline returns `null` having performed no network fetch at all;
and conversely any fetch (page or Open-Graph) only ever happens after the
hash probe came back empty. -/
theorem C3_hash_early_exit (env : ScrapeEnv) (st : Store) (item : FeedItem)
    (src : SourceDoc) (fast : Bool) (now : Nat) (sid : String)
    (hmid : src.mid = some sid) :
    (hashExists st (itemHash env item sid) = true →
      scrapeArticle env st item src fast now = (none, [])) ∧
    ((scrapeArticle env st item src fast now).2 ≠ [] →
      hashExists st (itemHash env item sid) = false) := by
  constructor
  · exact scrapeArticle_none_of_hashExists env st item src fast now sid hmid
  · intro hne
    by_cases hh : hashExists st (itemHash env item sid) = true
    · rw [scrapeArticle_none_of_hashExists env st item src fast now sid hmid hh]
        at hne
      exact absurd rfl hne
    · simpa using hh

/-- C3 witness: with the store already holding the item's hash, the item
is dropped with an empty fetch trace. -/
theorem C3_hash_early_exit_witness :
    hashExists witStoreHash (itemHash witnessEnv witItem "sid1") = true ∧
    scrapeArticle witnessEnv witStoreHash witItem witSrc false 0 = (none, []) :=
  ⟨by decide,
   (C3_hash_early_exit witnessEnv witStoreHash witItem witSrc false 0 "sid1"
     rfl).1 (by decide)⟩

/-- C4: the insert loop of `scrapeAllSources` appends a block of documents
whose slugs (i) were each absent from the store at their insertion and
(ii) are pairwise distinct — so two inserted items whose titles slugify to
the same base still persist two distinct, unique slugs, the collision
being resolved by `resolveSlug` (the `baseSlug-${Date.now()}-${counter}`
retry loop). -/
theorem C4_slug_uniqueness (env : ScrapeEnv) (st : Store) (src : SourceDoc)
    (arts : List ScrapedArticle) (now : Nat) :
    ∃ Δ : List ArticleDoc,
      insertArticles env st src arts now = (st ++ Δ, Δ.length) ∧
      (∀ d ∈ Δ, slugExists st d.slug = false) ∧
      Δ.Pairwise (fun d1 d2 => d1.slug ≠ d2.slug) := by
  obtain ⟨Δ, h1, h2, h3⟩ := foldl_insert_delta env src now arts st 0
  refine ⟨Δ, ?_, h2, h3⟩
  unfold insertArticles
  rw [h1]
  simp

/-- C5 counterexample: with 9 persisted `technology` articles in language
`te` and no persisted `technology` category, classifying the next (10th)
article does *not* create the category — `createDynamicCategory` counts
only already-persisted articles and requires 10 of them, so it returns
`null` and leaves the category collection unchanged. -/
theorem C5_counterexample :
    (nineTeTech.filter (articleMatchesDetected "technology" "te")).length = 9 ∧
    createDynamicCategory [] nineTeTech "technology" "te" = (none, []) := by
  constructor
  · decide
  · decide

/-- C5 (amended): dynamic category creation fires exactly when at least 10
matching articles are already persisted at classification time.  With no
matching persisted category: 10 or more existing articles make the next
classification create an `isDynamic` category for the detected key and
language; fewer than 10 create nothing. -/
theorem C5_amended_threshold (cats : List CategoryDoc) (st : Store)
    (detected language : String)
    (h1 : detected ≠ "") (h2 : detected ≠ "general")
    (h3 : detected ≠ "uncategorized")
    (hnone : cats.find? (fun c =>
      c.key = detected && (c.language = some language || c.language = none))
      = none) :
    (10 ≤ (st.filter (articleMatchesDetected detected language)).length →
      ∃ c : CategoryDoc,
        createDynamicCategory cats st detected language = (some c, cats ++ [c]) ∧
        c.key = detected ∧ c.language = some language ∧ c.isDynamic = true) ∧
    ((st.filter (articleMatchesDetected detected language)).length < 10 →
      createDynamicCategory cats st detected language = (none, cats)) := by
  unfold createDynamicCategory
  rw [if_neg (by simp [h1, h2, h3]), hnone]
  dsimp only
  constructor
  · intro hge
    rw [if_pos hge]
    exact ⟨_, rfl, rfl, rfl, rfl⟩
  · intro hlt
    rw [if_neg (by omega)]

/-- C5 witness: at exactly 10 persisted matching articles the category is
created (`isDynamic`, scoped to `te`); nine persisted articles do not
suffice. -/
theorem C5_amended_threshold_witness :
    (tenTeTech.filter (articleMatchesDetected "technology" "te")).length = 10 ∧
    ∃ c : CategoryDoc,
      createDynamicCategory [] tenTeTech "technology" "te" = (some c, [c]) ∧
      c.key = "technology" ∧ c.language = some "te" ∧ c.isDynamic = true := by
  refine ⟨by decide, ?_⟩
  obtain ⟨c, hc, hk, hl, hd⟩ :=
    (C5_amended_threshold [] tenTeTech "technology" "te"
      (by decide) (by decide) (by decide) (by decide)).1 (by decide)
  exact ⟨c, by simpa using hc, hk, hl, hd⟩

/-- C6 counterexample: the claim says the fallback path fires for every
feed URL when the primary parse returns zero items.  In
`ScrapingService.scrapeSource` the fallback lives only in the `catch` of
`parseURL`: an environment whose primary parse succeeds with an empty
feed, while the raw body would parse into two items, still yields the
empty feed — the fallback is never consulted there. -/
theorem C6_counterexample :
    envEmptyPrimary.parseFeedUrl "u" = .ok feedEmpty ∧
    feedEmpty.items.length = 0 ∧
    scriptFallbackFeed envEmptyPrimary "u" = some feedTwo ∧
    feedTwo.items.length = 2 ∧
    fetchFeed envEmptyPrimary "u" = .ok feedEmpty := by
  exact ⟨rfl, rfl, rfl, rfl, rfl⟩

/-- C6 (amended): a thrown primary parse triggers the raw-fetch-then-parse
fallback in both implementations, preserving the fallback feed's item
count; the zero-items trigger exists only in the `runScraper.ts` script —
`ScrapingService.scrapeSource` returns a successfully parsed feed as-is,
even when it is empty. -/
theorem C6_amended_fallback (env1 env2 : ScrapeEnv) (url raw : String)
    (f g : Feed)
    (h1p : env1.parseFeedUrl url = .error ())
    (h1r : env1.fetchRaw url = .ok raw)
    (h1s : env1.parseFeedStr raw = .ok f)
    (h2p : env2.parseFeedUrl url = .ok g) :
    fetchFeed env1 url = .ok f ∧
    fetchFeed env2 url = .ok g ∧
    (¬f.items.isEmpty → acquireFeedScript env1 url = some f) ∧
    (g.items.isEmpty → env2.fetchRaw url = .ok raw →
      env2.parseFeedStr raw = .ok f → ¬f.items.isEmpty →
      acquireFeedScript env2 url = some f) := by
  refine ⟨?_, ?_, ?_, ?_⟩
  · unfold fetchFeed retryRequest fetchFeedAttempt
    rw [h1p]
    dsimp only
    rw [h1r]
    dsimp only
    exact h1s
  · unfold fetchFeed retryRequest fetchFeedAttempt
    rw [h2p]
  · intro hne
    have hfb : scriptFallbackFeed env1 url = some f := by
      unfold scriptFallbackFeed
      rw [h1r]
      dsimp only
      rw [h1s]
      dsimp only
      rw [if_neg (by simpa using hne)]
    unfold acquireFeedScript
    rw [h1p]
    dsimp only
    rw [hfb]
    dsimp only
    rw [if_neg (by simpa using hne)]
    dsimp only
    rw [if_neg (by simpa using hne)]
  · intro hemp h2r h2s hne
    have hfb : scriptFallbackFeed env2 url = some f := by
      unfold scriptFallbackFeed
      rw [h2r]
      dsimp only
      rw [h2s]
      dsimp only
      rw [if_neg (by simpa using hne)]
    unfold acquireFeedScript
    rw [h2p]
    dsimp only
    rw [if_pos (by simpa using hemp), hfb]
    dsimp only
    rw [if_neg (by simpa using hne)]

/-- C6 witness: a throwing primary with a valid raw body yields the raw
feed's two items through the fallback in both implementations, and an
empty-but-successful primary parse is returned unchanged by the service
while the script's second fallback pass recovers the two items. -/
theorem C6_amended_fallback_witness :
    fetchFeed envThrowPrimary "u" = .ok feedTwo ∧
    fetchFeed envEmptyPrimary "u" = .ok feedEmpty ∧
    acquireFeedScript envThrowPrimary "u" = some feedTwo ∧
    acquireFeedScript envEmptyPrimary "u" = some feedTwo := by
  obtain ⟨w1, _, w3, _⟩ := C6_amended_fallback envThrowPrimary envEmptyPrimary
    "u" "<rss>xml</rss>" feedTwo feedEmpty rfl rfl rfl rfl
  obtain ⟨_, w2, _, w4⟩ := C6_amended_fallback envThrowPrimary envEmptyPrimary
    "u" "<rss>xml</rss>" feedTwo feedEmpty rfl rfl rfl rfl
  exact ⟨w1, w2, w3 (by decide), w4 (by decide) rfl rfl (by decide)⟩

/-! ## Image-filter lemmas -/

theorem isValid_false_of_excluded {src alt : String} (w h : Nat)
    (hx : hasExcludePattern src alt = true) :
    isValidArticleImage src alt w h = false := by
  unfold isValidArticleImage
  rw [if_pos hx]

theorem candsToImgs_excluded_nil (env : ScrapeEnv) (baseUrl : String)
    (cs : List ImgCand)
    (h : ∀ c ∈ cs, hasExcludePattern (candSrc c) (candAlt c) = true) :
    candsToImgs env baseUrl cs = [] := by
  unfold candsToImgs
  rw [List.filterMap_eq_nil_iff]
  intro c hc
  rw [if_neg]
  intro ⟨_, hvalid⟩
  rw [isValid_false_of_excluded c.width c.height (h c hc)] at hvalid
  cases hvalid

theorem foldl_selectors_nil (env : ScrapeEnv) (baseUrl html : String)
    (idxs : List Nat)
    (h : ∀ i ∈ idxs, candsToImgs env baseUrl (env.selCands html i) = []) :
    idxs.foldl (fun acc i =>
      if acc.isEmpty then candsToImgs env baseUrl (env.selCands html i)
      else acc) [] = [] := by
  induction idxs with
  | nil => rfl
  | cons i idxs ih =>
    rw [List.foldl_cons]
    simp only [List.isEmpty_nil, if_true]
    rw [h i (List.mem_cons_self i idxs)]
    exact ih (fun j hj => h j (List.mem_cons_of_mem i hj))

/-- C8 counterexample: the claim says the 200×200 floor rejects an image
only when *both* declared dimensions are present.  `isValidArticleImage`
rejects `(width 150, height absent)` although only one dimension is
declared — the check is per-dimension, not both-dimensions. -/
theorem C8_counterexample :
    hasExcludePattern "a.jpg" "x" = false ∧
    isValidArticleImage "a.jpg" "x" 150 0 = false := by
  exact ⟨by decide, by decide⟩

/-- C8 (amended): an exclude-keyword hit on URL or alt text always rejects
the candidate, and a page all of whose image candidates carry exclude
keywords yields no article image at all; the size floor rejects exactly
when at least one *declared* (positive) dimension is below 200 —
undeclared dimensions are not checked — so 150×150 is rejected and
300×300 accepted, all else equal. -/
theorem C8_amended_image_filter :
    (∀ (src alt : String) (w h : Nat), hasExcludePattern src alt = true →
      isValidArticleImage src alt w h = false) ∧
    (∀ (env : ScrapeEnv) (html baseUrl : String),
      (∀ i, ∀ c ∈ env.selCands html i,
        hasExcludePattern (candSrc c) (candAlt c) = true) →
      (∀ c ∈ env.allImgs html,
        hasExcludePattern (candSrc c) (candAlt c) = true) →
      extractImages env html baseUrl = []) ∧
    (∀ (src alt : String) (w h : Nat),
      isValidArticleImage src alt w h = false ↔
        (hasExcludePattern src alt = true ∨
          (0 < w ∧ w < 200) ∨ (0 < h ∧ h < 200))) ∧
    (∀ src alt : String, hasExcludePattern src alt = false →
      isValidArticleImage src alt 150 150 = false ∧
      isValidArticleImage src alt 300 300 = true) := by
  refine ⟨fun src alt w h hx => isValid_false_of_excluded w h hx, ?_, ?_, ?_⟩
  · intro env html baseUrl hsel hall
    unfold extractImages
    rw [foldl_selectors_nil env baseUrl html (List.range 6)
      (fun i _ => candsToImgs_excluded_nil env baseUrl _ (hsel i))]
    dsimp only [List.isEmpty_nil, if_true]
    rw [candsToImgs_excluded_nil env baseUrl _ hall]
    rfl
  · intro src alt w h
    unfold isValidArticleImage
    by_cases hx : hasExcludePattern src alt = true
    · rw [if_pos hx]
      simp [hx]
    · rw [if_neg hx]
      by_cases hd : ((decide (0 < w) && decide (w < 200)) ||
          (decide (0 < h) && decide (h < 200))) = true
      · rw [if_pos hd]
        simp only [Bool.or_eq_true, Bool.and_eq_true, decide_eq_true_eq] at hd
        simp [hd]
      · rw [if_neg hd]
        simp only [Bool.or_eq_true, Bool.and_eq_true, decide_eq_true_eq] at hd
        push_neg at hd
        constructor
        · intro hfalse; cases hfalse
        · intro hcase
          rcases hcase with hc | hc | hc
          · exact absurd hc hx
          · exact absurd hc.2 (by omega)
          · exact absurd hc.2 (by omega)
  · intro src alt hx
    constructor
    · unfold isValidArticleImage
      rw [if_neg (by simp [hx]), if_pos (by decide)]
    · unfold isValidArticleImage
      rw [if_neg (by simp [hx]), if_neg (by decide)]

/-- C8 witness: a logo-only page yields no article image, the two size
fixtures behave as amended, and the keyword rejection fires on a concrete
logo URL. -/
theorem C8_amended_image_filter_witness :
    isValidArticleImage "https://x.example/logo.png" "y" 400 400 = false ∧
    extractImages envLogoImgs "<html></html>" "https://x.example" = [] ∧
    isValidArticleImage "photo.jpg" "x" 150 150 = false ∧
    isValidArticleImage "photo.jpg" "x" 300 300 = true := by
  refine ⟨C8_amended_image_filter.1 _ _ _ _ (by decide), ?_, ?_, ?_⟩
  · exact C8_amended_image_filter.2.1 envLogoImgs "<html></html>"
      "https://x.example" (fun i c hc => by cases hc) (by decide)
  · exact (C8_amended_image_filter.2.2.2 "photo.jpg" "x" (by decide)).1
  · exact (C8_amended_image_filter.2.2.2 "photo.jpg" "x" (by decide)).2

/-- C9 counterexample: the claim says rotation state is private per
instance, so a draw through one `ScrapingService` instance would never
change what another instance draws next.  The indices are module-level
(`let currentUserAgentIndex = 0` at file scope): with the shared state
fresh, instance B would draw the first user agent; after instance A draws
once through the same shared state, B draws the second — a different
identity. -/
theorem C9_counterexample :
    (getNextUserAgent ⟨0, 0⟩).1 = USER_AGENTS.getD 0 "" ∧
    (getNextUserAgent (getNextUserAgent ⟨0, 0⟩).2).1 = USER_AGENTS.getD 1 "" ∧
    (getNextUserAgent ⟨0, 0⟩).1 ≠
      (getNextUserAgent (getNextUserAgent ⟨0, 0⟩).2).1 := by
  exact ⟨rfl, rfl, by decide⟩

/-- C9 (amended): the user-agent rotation index is one module-level,
process-wide cell shared by every `ScrapingService` instance: the identity
any draw obtains is determined by the total number of draws performed so
far across the whole process, advancing round-robin modulo the pool
size. -/
theorem C9_amended_shared_rotation (s : RotationState) (k : Nat)
    (hs : s.uaIdx < USER_AGENTS.length) :
    (uaIterate k s).uaIdx = (s.uaIdx + k) % USER_AGENTS.length ∧
    (getNextUserAgent (uaIterate k s)).1 =
      USER_AGENTS.getD ((s.uaIdx + k) % USER_AGENTS.length) "" := by
  have hidx : ∀ (k : Nat) (s : RotationState),
      s.uaIdx < USER_AGENTS.length →
      (uaIterate k s).uaIdx = (s.uaIdx + k) % USER_AGENTS.length := by
    intro k
    induction k with
    | zero =>
      intro s hs
      have hlen : USER_AGENTS.length = 8 := rfl
      rw [hlen] at hs ⊢
      simp only [uaIterate]
      omega
    | succ k ih =>
      intro s hs
      have hlen : USER_AGENTS.length = 8 := rfl
      have hstep : (getNextUserAgent s).2.uaIdx =
          (s.uaIdx + 1) % USER_AGENTS.length := rfl
      have hlt : (getNextUserAgent s).2.uaIdx < USER_AGENTS.length := by
        rw [hstep, hlen]
        omega
      have := ih (getNextUserAgent s).2 hlt
      show (uaIterate k (getNextUserAgent s).2).uaIdx = _
      rw [this, hstep, hlen]
      omega
  refine ⟨hidx k s hs, ?_⟩
  show USER_AGENTS.getD (uaIterate k s).uaIdx "" = _
  rw [hidx k s hs]

/-- C9 witness: from the initial shared state, ten draws land on index
`10 % 8 = 2` and the next identity is the third user agent — regardless of
which instances performed the draws. -/
theorem C9_amended_shared_rotation_witness :
    (uaIterate 10 ⟨0, 0⟩).uaIdx = 2 ∧
    (getNextUserAgent (uaIterate 10 ⟨0, 0⟩)).1 = USER_AGENTS.getD 2 "" := by
  obtain ⟨h1, h2⟩ := C9_amended_shared_rotation ⟨0, 0⟩ 10 (by decide)
  exact ⟨h1, h2⟩

/-- C10: `scrapeArticle` is total at its interface: an item with a missing
(or empty) title or link is answered with `null` and no fetch; a source
whose id is absent (the one sub-expression in scope that throws —
`source.id.toString()`) is caught by the catch-all and also answered with
`null` and no fetch.  The function never writes the article store (its
only store access is the read-only hash probe). -/
theorem C10_scrapeArticle_total (env : ScrapeEnv) (st : Store)
    (item : FeedItem) (src : SourceDoc) (fast : Bool) (now : Nat) :
    ((itemTitle item = "" ∨ itemLink item = "") →
      scrapeArticle env st item src fast now = (none, [])) ∧
    (src.mid = none → scrapeArticle env st item src fast now = (none, [])) :=
  ⟨scrapeArticle_none_of_guard env st item src fast now,
   scrapeArticle_none_of_noId env st item src fast now⟩

/-- C10 witness: a blank item is skipped with `null`, and a well-formed
item under an id-less source is caught and skipped with `null`. -/
theorem C10_scrapeArticle_total_witness :
    itemTitle emptyItem = "" ∧
    scrapeArticle witnessEnv [] emptyItem witSrc false 0 = (none, []) ∧
    witSrcNoId.mid = none ∧
    scrapeArticle witnessEnv [] witItem witSrcNoId false 0 = (none, []) :=
  ⟨rfl,
   (C10_scrapeArticle_total witnessEnv [] emptyItem witSrc false 0).1
     (Or.inl rfl),
   rfl,
   (C10_scrapeArticle_total witnessEnv [] witItem witSrcNoId false 0).2 rfl⟩

/-! ## C7: classification -/

theorem classifierDict_expand :
    classifierDict = ("politics", politicsKeys) :: ("sports", sportsKeys) ::
      [("entertainment", entertainmentKeys), ("technology", technologyKeys),
       ("health", healthKeys), ("business", businessKeys),
       ("education", educationKeys), ("crime", crimeKeys)] := rfl

/-- C7 counterexample: the claim covers the pipeline's classification, and
`ScrapingService.determineCategory` is one of its cited implementations.
That function has no language parameter and knows only English keywords:
a Telugu-script input made of Telugu sports keywords matches nothing,
falls through to the (absent) source categories, and the caller defaults
to `general` — not `sports`.  The script classifier
`computeCategoryFromText` does return `sports` on the very same input,
exhibiting the divergence. -/
theorem C7_counterexample :
    determineCategory "క్రికెట్" "" [] = none ∧
    (determineCategory "క్రికెట్" "" []).getD "general" = "general" ∧
    computeCategoryFromText (fun _ => false) "క్రికెట్" "" "" (some "te")
      = "sports" := by
  refine ⟨by rfl, by rfl, by rfl⟩

set_option maxHeartbeats 2000000 in
/-- C7 (amended): in `computeCategoryFromText` — the classifier that takes
the declared language — `te` activates exactly the Telugu-script keywords
(any keyword without a Telugu code point is filtered out); an input whose
active matches are Telugu sports keywords only classifies as `sports`; and
zero active matches in every category yield `general`, for any language.
`ScrapingService.determineCategory`, by contrast, matches a fixed English
keyword table with no language scoping, and with zero substring hits it
falls back to the source's first declared category (the caller then
defaults `null` to `general`). -/
theorem C7_amended_classification
    (isPS : Char → Bool) (title summary content : String)
    (t2 s2 c2 : String) (lang2 : Option String) (cats2 : List String)
    (h1 : ∃ k ∈ sportsKeys, scriptFilter "telugu" k = true ∧
      kwMatch (normalizeText isPS (title ++ " " ++ summary ++ " " ++ content))
        k = true)
    (h2 : ∀ p ∈ classifierDict, p.1 ≠ "sports" → ∀ k ∈ p.2,
      scriptFilter "telugu" k = true →
      kwMatch (normalizeText isPS (title ++ " " ++ summary ++ " " ++ content))
        k = false)
    (h3 : ∀ p ∈ classifierDict, ∀ k ∈ p.2,
      scriptFilter (normalizedLangOf lang2) k = true →
      kwMatch (normalizeText isPS (t2 ++ " " ++ s2 ++ " " ++ c2)) k = false)
    (h4 : ∀ p ∈ mKeywords, ∀ kw ∈ p.2,
      strIncludes (lowerStr (t2 ++ " " ++ s2)) kw = false) :
    (∀ k : String, containsRange 0xC00 0xC7F k = false →
      scriptFilter (normalizedLangOf (some "te")) k = false) ∧
    computeCategoryFromText isPS title summary content (some "te") = "sports" ∧
    computeCategoryFromText isPS t2 s2 c2 lang2 = "general" ∧
    determineCategory t2 s2 cats2 = cats2.head? := by
  obtain ⟨ks, hks, hksfil, hksmatch⟩ := h1
  refine ⟨?_, ?_, ?_, ?_⟩
  · intro k hk
    show scriptFilter "telugu" k = false
    rw [show scriptFilter "telugu" k = containsRange 0xC00 0xC7F k from rfl]
    exact hk
  · unfold computeCategoryFromText
    dsimp only
    rw [show normalizedLangOf (some "te") = "telugu" from rfl]
    rw [classifierDict_expand, List.foldl_cons, List.foldl_cons]
    have hpol : categoryScore "telugu"
        (normalizeText isPS (title ++ " " ++ summary ++ " " ++ content))
        politicsKeys = 0 :=
      categoryScore_zero _ _ _
        (h2 ("politics", politicsKeys) (by rw [classifierDict_expand]; simp)
          (by decide))
    have hsp : 0 < categoryScore "telugu"
        (normalizeText isPS (title ++ " " ++ summary ++ " " ++ content))
        sportsKeys :=
      categoryScore_pos _ _ _ hks hksfil hksmatch
    have e1 : (if (("general", 0) : String × Nat).2 < categoryScore "telugu"
        (normalizeText isPS (title ++ " " ++ summary ++ " " ++ content))
        politicsKeys then
          (("politics", politicsKeys).1, categoryScore "telugu"
            (normalizeText isPS (title ++ " " ++ summary ++ " " ++ content))
            politicsKeys)
        else ("general", 0)) = ("general", 0) := by
      rw [hpol]
      exact if_neg (by omega)
    rw [e1]
    have e2 : (if (("general", 0) : String × Nat).2 < categoryScore "telugu"
        (normalizeText isPS (title ++ " " ++ summary ++ " " ++ content))
        sportsKeys then
          (("sports", sportsKeys).1, categoryScore "telugu"
            (normalizeText isPS (title ++ " " ++ summary ++ " " ++ content))
            sportsKeys)
        else ("general", 0)) = ("sports", categoryScore "telugu"
          (normalizeText isPS (title ++ " " ++ summary ++ " " ++ content))
          sportsKeys) := by
      exact if_pos hsp
    rw [e2]
    have h2' : ∀ p ∈ [("entertainment", entertainmentKeys),
        ("technology", technologyKeys), ("health", healthKeys),
        ("business", businessKeys), ("education", educationKeys),
        ("crime", crimeKeys)], categoryScore "telugu"
          (normalizeText isPS (title ++ " " ++ summary ++ " " ++ content))
          p.2 = 0 := by
      intro p hp
      refine categoryScore_zero _ _ _ (fun k hk hf => h2 p ?_ ?_ k hk hf)
      · rw [classifierDict_expand]
        exact List.mem_cons_of_mem _ (List.mem_cons_of_mem _ hp)
      · simp only [List.mem_cons, List.not_mem_nil, or_false] at hp
        rcases hp with rfl | rfl | rfl | rfl | rfl | rfl <;> decide
    rw [catfold_keep "telugu"
      (normalizeText isPS (title ++ " " ++ summary ++ " " ++ content)) _ h2']
    exact if_pos hsp
  · exact computeCategory_zero_matches isPS t2 s2 c2 lang2 h3
  · unfold determineCategory
    dsimp only
    have hfind : mKeywords.find? (fun p =>
        p.2.any (fun kw => strIncludes (lowerStr (t2 ++ " " ++ s2)) kw))
        = none := by
      rw [List.find?_eq_none]
      intro p hp
      intro hany
      obtain ⟨kw, hkw, hinc⟩ := List.any_eq_true.mp hany
      rw [h4 p hp kw hkw] at hinc
      cases hinc
    rw [hfind]

set_option maxHeartbeats 4000000 in
set_option maxRecDepth 8000 in
/-- C7 witness: the Telugu word for cricket classifies as `sports` under
`te`; an input matching nothing classifies as `general`; and
`determineCategory` on the no-match input falls back to the source's first
declared category. -/
theorem C7_amended_classification_witness :
    computeCategoryFromText (fun _ => false) "క్రికెట్" "" "" (some "te")
      = "sports" ∧
    computeCategoryFromText (fun _ => false) "zzz qq" "" "" (some "en")
      = "general" ∧
    determineCategory "zzz qq" "" ["movies"] = some "movies" := by
  obtain ⟨_, hsp, hgen, hdet⟩ := C7_amended_classification
    (fun _ => false) "క్రికెట్" "" "" "zzz qq" "" "" (some "en") ["movies"]
    (by decide) (by decide) (by decide) (by decide)
  exact ⟨hsp, hgen, hdet.trans rfl⟩

end NewsIngest
